import Mathlib

/-!
Shallow embedding of the data-agent repository's query execution engine
(`src/query_executor.py`, `src/data_handler.py`) and KPI/anomaly engine
(`src/backend/app/core/alerts_handler.py`), together with theorems settling
the specification claims.

Conventions of the embedding:
* A pandas DataFrame of transaction rows is a `List Row`; column access is
  `colVal` on the fixed schema.
* Python floats are embedded as `ℚ` wherever the code keeps them finite;
  the value of a float expression that can become `inf`/`-inf`/`NaN`
  (unguarded division) is embedded as `PVal`, with the IEEE outcomes of
  division by zero and of arithmetic/comparisons on non-finite values
  reproduced case by case.
* Python exceptions are an `Except Err` result; `Err` distinguishes the
  `ValueError("Column ... not found")` (schema error), the
  `ValueError("Unsupported metric: ...")` and the pandas `KeyError` raised
  by `groupby` on an unknown column.
* The ascending key sort performed by `df.groupby` is embedded as a
  stable sort over distinct keys (ties cannot arise between distinct
  keys).  `df.sort_values` defaults to `kind='quicksort'`, which leaves
  the relative order of tied rows unspecified; the embedding must pick
  some executable sort (`List.insertionSort`), so theorems about the
  sorted result state only properties independent of tie order — that it
  is a permutation of the input, pairwise ordered by the comparator.
-/

namespace DataAgent

/-! ### Cell values -/

/-- A value stored in a DataFrame cell: a string, an integer (dates are
integer day numbers, as `pd.Timestamp` is totally ordered), or a rational
(currency amounts). -/
inductive Value where
  | s (v : String)
  | i (v : ℤ)
  | q (v : ℚ)
  deriving DecidableEq, Repr

/-- `str(value)` as used when the code stores a segment value in an alert. -/
def Value.display : Value → String
  | .s v => v
  | .i v => toString v
  | .q v => toString v

/-- Byte-wise `≤` on characters. -/
def charLe (a b : Char) : Bool := a.val ≤ b.val

/-- Lexicographic `≤` on character lists. -/
def lexLe : List Char → List Char → Bool
  | [], _ => true
  | _ :: _, [] => false
  | a :: as, b :: bs => if a = b then lexLe as bs else charLe a b

/-- Total `≤` on strings (lexicographic), used for sorting group keys. -/
def strLe (a b : String) : Bool := lexLe a.data b.data

/-- Total `≤` on cell values: within a constructor the natural order,
across constructors the constructor rank.  (In the source every column is
homogeneous, so only the within-constructor cases are ever exercised.) -/
def Value.le : Value → Value → Bool
  | .s a, .s b => strLe a b
  | .i a, .i b => a ≤ b
  | .q a, .q b => a ≤ b
  | .s _, _ => true
  | .i _, .s _ => false
  | .i _, .q _ => true
  | .q _, .s _ => false
  | .q _, .i _ => false

/-- Lexicographic `≤` on group keys (lists of cell values). -/
def keyLe : List Value → List Value → Bool
  | [], _ => true
  | _ :: _, [] => false
  | a :: as, b :: bs => if a = b then keyLe as bs else a.le b

/-! ### Transaction rows and the fixed schema -/

/-- Weekday name derived from the integer day number (day 0 being a
Thursday, as in the Unix epoch); embeds `df['day'].dt.day_name()`. -/
def dayName (d : ℤ) : String :=
  match (d % 7).toNat with
  | 0 => "Thursday"
  | 1 => "Friday"
  | 2 => "Saturday"
  | 3 => "Sunday"
  | 4 => "Monday"
  | 5 => "Tuesday"
  | _ => "Wednesday"

/-- One transaction record (a row of the loaded CSV after
`DataHandler._load_data`, which parses `day` and derives `day_of_week`). -/
structure Row where
  day : ℤ
  entity : String
  product : String
  price_tier : String
  anticipation_method : String
  payment_method : String
  installments : ℤ
  amount_transacted : ℚ
  quantity_transactions : ℤ
  quantity_of_merchants : ℤ
  deriving DecidableEq, Repr

/-- The derived `day_of_week` column. -/
def Row.day_of_week (r : Row) : String := dayName r.day

/-- `df.columns` after loading. -/
def columnNames : List String :=
  ["day", "entity", "product", "price_tier", "anticipation_method",
   "payment_method", "installments", "amount_transacted",
   "quantity_transactions", "quantity_of_merchants", "day_of_week"]

/-- Column membership test (`column in df.columns`). -/
def hasColumn (c : String) : Bool := columnNames.contains c

/-- Cell lookup `row[column]`; `none` on a column outside the schema. -/
def colVal (r : Row) (c : String) : Option Value :=
  if c = "day" then some (.i r.day)
  else if c = "entity" then some (.s r.entity)
  else if c = "product" then some (.s r.product)
  else if c = "price_tier" then some (.s r.price_tier)
  else if c = "anticipation_method" then some (.s r.anticipation_method)
  else if c = "payment_method" then some (.s r.payment_method)
  else if c = "installments" then some (.i r.installments)
  else if c = "amount_transacted" then some (.q r.amount_transacted)
  else if c = "quantity_transactions" then some (.i r.quantity_transactions)
  else if c = "quantity_of_merchants" then some (.i r.quantity_of_merchants)
  else if c = "day_of_week" then some (.s r.day_of_week)
  else none

/-- The in-memory dataset handler (`DataHandler`): the loaded frame. -/
structure DataHandler where
  data : List Row
  deriving DecidableEq, Repr

/-! ### Errors -/

/-- The exceptions the embedded code can raise. -/
inductive Err where
  /-- `ValueError(f"Column '{column}' not found")` from `filter_data`. -/
  | schemaError (column : String)
  /-- `ValueError(f"Unsupported metric: {metric}")`. -/
  | unsupportedMetric (metric : String)
  /-- pandas `KeyError` from `groupby` on a column outside the schema. -/
  | keyError (column : String)
  deriving DecidableEq, Repr

/-! ### Filtering (`DataHandler.filter_data`) -/

/-- A filter value: a scalar or a list of admissible values
(the `isinstance(value, list)` branch). -/
inductive FilterVal where
  | scalar (v : Value)
  | several (vs : List Value)
  deriving DecidableEq, Repr

/-- Row predicate of one filter entry: equality with the scalar, or
membership of the list (`isin`). -/
def rowMatches (c : String) (fv : FilterVal) (r : Row) : Bool :=
  match fv with
  | .scalar v => colVal r c = some v
  | .several vs => (colVal r c).any (fun x => vs.contains x)

/-- `DataHandler.filter_data`: AND-combined column filters applied in
order; an unknown column raises. -/
def filter_data (rows : List Row) : List (String × FilterVal) → Except Err (List Row)
  | [] => .ok rows
  | (c, fv) :: rest =>
    if hasColumn c then filter_data (rows.filter (rowMatches c fv)) rest
    else .error (.schemaError c)

/-- `DataHandler.filter_data` as an operation on the handler state: the
method only reads `self.data` (working on a copy of the frame) and never
assigns to `self`, so its state-passing translation returns the handler
it received together with the filtered view. -/
def filter_data_st (dh : DataHandler) (fs : List (String × FilterVal)) :
    Except Err (DataHandler × List Row) :=
  match filter_data dh.data fs with
  | .error e => .error e
  | .ok out => .ok (dh, out)

/-! ### Non-finite float values -/

/-- A Python float that may have left the finite range through an
unguarded division: finite rational, `inf`, `-inf` or `NaN`. -/
inductive PVal where
  | fin (q : ℚ)
  | inf
  | neginf
  | nan
  deriving DecidableEq, Repr

/-- Float division `a / b` of finite operands, as pandas performs it
column-wise: finite quotient, or `±inf`/`NaN` on a zero denominator. -/
def pvdiv (a b : ℚ) : PVal :=
  if b = 0 then (if 0 < a then .inf else if a < 0 then .neginf else .nan)
  else .fin (a / b)

/-- Float addition. -/
def pvadd : PVal → PVal → PVal
  | .nan, _ => .nan
  | _, .nan => .nan
  | .inf, .neginf => .nan
  | .neginf, .inf => .nan
  | .inf, _ => .inf
  | _, .inf => .inf
  | .neginf, _ => .neginf
  | _, .neginf => .neginf
  | .fin a, .fin b => .fin (a + b)

/-- Float subtraction. -/
def pvsub : PVal → PVal → PVal
  | .nan, _ => .nan
  | _, .nan => .nan
  | .inf, .inf => .nan
  | .neginf, .neginf => .nan
  | .inf, _ => .inf
  | _, .inf => .neginf
  | .neginf, _ => .neginf
  | _, .neginf => .inf
  | .fin a, .fin b => .fin (a - b)

/-- Float squaring (used for squared deviations). -/
def pvsq : PVal → PVal
  | .fin a => .fin (a * a)
  | .inf => .inf
  | .neginf => .inf
  | .nan => .nan

/-- Float division of two possibly non-finite values. -/
def pvdivP : PVal → PVal → PVal
  | .nan, _ => .nan
  | _, .nan => .nan
  | .fin a, .fin b => pvdiv a b
  | .fin _, .inf => .fin 0
  | .fin _, .neginf => .fin 0
  | .inf, .inf => .nan
  | .inf, .neginf => .nan
  | .neginf, .inf => .nan
  | .neginf, .neginf => .nan
  | .inf, .fin b => if b < 0 then .neginf else .inf
  | .neginf, .fin b => if b < 0 then .inf else .neginf

/-- Float multiplication by a finite constant. -/
def pvscale (c : ℚ) : PVal → PVal
  | .fin a => .fin (a * c)
  | .inf => if 0 < c then .inf else if c < 0 then .neginf else .nan
  | .neginf => if 0 < c then .neginf else if c < 0 then .inf else .nan
  | .nan => .nan

/-- Float comparison `0 < v` (false on `NaN`, as in IEEE). -/
def pvGtZero : PVal → Bool
  | .fin a => 0 < a
  | .inf => true
  | .neginf => false
  | .nan => false

/-- Float comparison `v < 0` (false on `NaN`). -/
def pvLtZero : PVal → Bool
  | .fin a => a < 0
  | .inf => false
  | .neginf => true
  | .nan => false

/-- Float comparison `abs v > t` for a finite threshold (false on `NaN`). -/
def pvAbsGt (v : PVal) (t : ℚ) : Bool :=
  match v with
  | .fin a => t < |a|
  | .inf => true
  | .neginf => true
  | .nan => false

/-- Sum of a series of floats (`Series.sum`, starting from `0`). -/
def pvSum (xs : List PVal) : PVal := xs.foldl pvadd (.fin 0)

/-- The non-`NaN` entries of a series: pandas reductions default to
`skipna=True`, dropping `NaN` observations (but not `±inf`) before
reducing. -/
def pvDropNan (xs : List PVal) : List PVal := xs.filter (fun x => x ≠ .nan)

/-- Mean of a series of floats (`Series.mean`): the mean of the
non-`NaN` entries, `NaN` when none remain. -/
def pvMean (xs : List PVal) : PVal :=
  if (pvDropNan xs).isEmpty then .nan
  else
    match pvSum (pvDropNan xs) with
    | .fin s => .fin (s / (pvDropNan xs).length)
    | .inf => .inf
    | .neginf => .neginf
    | .nan => .nan

/-- Squared sample standard deviation of a series of floats
(`Series.std`, `ddof = 1`, squared): over the non-`NaN` entries, their
squared deviations from the series mean divided by `count − 1`; `NaN` on
fewer than two non-`NaN` points or on any non-finite deviation.  The
square is kept because the rationals have no square root; every use of
`std` below only needs its sign and its square. -/
def pvVar (xs : List PVal) : PVal :=
  if (pvDropNan xs).length < 2 then .nan
  else
    match pvSum ((pvDropNan xs).map (fun x => pvsq (pvsub x (pvMean xs)))) with
    | .fin s => .fin (s / ((pvDropNan xs).length - 1 : ℕ))
    | .inf => .inf
    | .neginf => .neginf
    | .nan => .nan

/-! ### Distinct values and group keys -/

/-- Worker for `uniqueFirst`, carrying the values already seen. -/
def uniqueFirstAux {α : Type} [DecidableEq α] (seen : List α) : List α → List α
  | [] => []
  | x :: xs =>
    if x ∈ seen then uniqueFirstAux seen xs
    else x :: uniqueFirstAux (x :: seen) xs

/-- Distinct elements in order of first occurrence
(`Series.unique`, also the raw bucket set of `groupby`). -/
def uniqueFirst {α : Type} [DecidableEq α] (l : List α) : List α :=
  uniqueFirstAux [] l

/-- The grouping key of a row for the given `group_by` columns. -/
def rowKey (gb : List String) (r : Row) : List Value :=
  gb.map (fun c => (colVal r c).getD (.s ""))

/-- The groups of `df.groupby(group_by)` in emission order: distinct keys
sorted ascending (`groupby` defaults to `sort=True`), each with the rows
carrying that key. -/
def groups (rows : List Row) (gb : List String) : List (List Value × List Row) :=
  (List.insertionSort (fun a b => keyLe a b = true)
      (uniqueFirst (rows.map (rowKey gb)))).map
    (fun k => (k, rows.filter (fun r => rowKey gb r = k)))

/-! ### Metric primitives (`DataHandler`) -/

/-- Sum of `amount_transacted` over a frame. -/
def sumAmount (rows : List Row) : ℚ := (rows.map (·.amount_transacted)).sum

/-- Sum of `quantity_transactions` over a frame (an integer column). -/
def sumQty (rows : List Row) : ℤ := (rows.map (·.quantity_transactions)).sum

/-- Sum of `quantity_of_merchants` over a frame. -/
def sumMerch (rows : List Row) : ℤ := (rows.map (·.quantity_of_merchants)).sum

/-- `DataHandler.calculate_tpv`. -/
def calculate_tpv (rows : List Row) : ℚ := sumAmount rows

/-- `DataHandler.calculate_average_ticket`: the weighted ratio
`sum(amount) / sum(quantity)` with the division guarded to `0`. -/
def calculate_average_ticket (rows : List Row) : ℚ :=
  if sumQty rows = 0 then 0 else sumAmount rows / (sumQty rows : ℚ)

/-! ### The query intent and result -/

/-- The structured query intent handed to `QueryExecutor.execute`
(the fields it reads; `metric`, `aggregation` and `group_by` are accessed
with `[...]`, the rest with `.get` and a default). -/
structure Intent where
  metric : String
  aggregation : String
  group_by : List String
  filters : List (String × FilterVal)
  sort_by : Option String := none
  sort_order : Option String := none
  limit : Option ℤ := none
  explanation : Option String := none
  deriving DecidableEq, Repr

/-- A row of a result frame: the `group_by` key columns
(`reset_index`), the aggregated source columns, and the synthetic
`metric_value` column. -/
structure ResRow where
  cells : List (String × Value)
  aggs : List (String × ℚ)
  metric_value : PVal
  deriving DecidableEq, Repr

/-- `QueryResult`. -/
structure QueryResult where
  data : List ResRow
  metric_value : Option PVal
  metric_name : String
  explanation : String
  query_intent : Intent
  deriving DecidableEq, Repr

/-! ### The query executor (`QueryExecutor`) -/

/-- `groupby` raises a `KeyError` on the first column outside the schema. -/
def checkGroupCols : List String → Except Err Unit
  | [] => .ok ()
  | c :: rest => if hasColumn c then checkGroupCols rest else .error (.keyError c)

/-- `QueryExecutor._execute_grouped_query`: per-metric aggregation over
the groups.  `average_ticket` divides the summed columns without a
zero-denominator guard, so its `metric_value` can be non-finite. -/
def _execute_grouped_query (data : List Row) (metric : String) (gb : List String) :
    Except Err (List ResRow) :=
  if metric = "tpv" then
    match checkGroupCols gb with
    | .error e => .error e
    | .ok _ => .ok ((groups data gb).map (fun g =>
        { cells := gb.zip g.1
          aggs := [("amount_transacted", sumAmount g.2)]
          metric_value := .fin (sumAmount g.2) }))
  else if metric = "average_ticket" then
    match checkGroupCols gb with
    | .error e => .error e
    | .ok _ => .ok ((groups data gb).map (fun g =>
        { cells := gb.zip g.1
          aggs := [("amount_transacted", sumAmount g.2),
                   ("quantity_transactions", (sumQty g.2 : ℚ))]
          metric_value := pvdiv (sumAmount g.2) (sumQty g.2 : ℚ) }))
  else if metric = "transactions" then
    match checkGroupCols gb with
    | .error e => .error e
    | .ok _ => .ok ((groups data gb).map (fun g =>
        { cells := gb.zip g.1
          aggs := [("quantity_transactions", (sumQty g.2 : ℚ))]
          metric_value := .fin (sumQty g.2 : ℚ) }))
  else if metric = "merchants" then
    match checkGroupCols gb with
    | .error e => .error e
    | .ok _ => .ok ((groups data gb).map (fun g =>
        { cells := gb.zip g.1
          aggs := [("quantity_of_merchants", (sumMerch g.2 : ℚ))]
          metric_value := .fin (sumMerch g.2 : ℚ) }))
  else .error (.unsupportedMetric metric)

/-- `QueryExecutor._execute_simple_query`: a one-row frame holding the
scalar metric over the whole (filtered) frame. -/
def _execute_simple_query (data : List Row) (metric : String) :
    Except Err (List ResRow) :=
  if metric = "tpv" then
    .ok [{ cells := [], aggs := [], metric_value := .fin (calculate_tpv data) }]
  else if metric = "average_ticket" then
    .ok [{ cells := [], aggs := [], metric_value := .fin (calculate_average_ticket data) }]
  else if metric = "transactions" then
    .ok [{ cells := [], aggs := [], metric_value := .fin (sumQty data : ℚ) }]
  else if metric = "merchants" then
    .ok [{ cells := [], aggs := [], metric_value := .fin (sumMerch data : ℚ) }]
  else .error (.unsupportedMetric metric)

/-- Value order `≤` on floats with `-inf` at the bottom and `inf` at the
top; the `NaN` rows never reach this comparison (they are separated out by
`pvCmp`). -/
def pvLeVal : PVal → PVal → Bool
  | .nan, _ => true
  | _, .nan => true
  | .neginf, _ => true
  | _, .neginf => false
  | .fin a, .fin b => a ≤ b
  | _, .inf => true
  | .inf, _ => false

/-- Comparator of `sort_values('metric_value', ascending := asc)` between
two metric values: `NaN` sorts last in either direction
(`na_position='last'`), otherwise the value order, flipped when
descending. -/
def pvCmp (asc : Bool) (a b : PVal) : Bool :=
  if a = .nan then b = .nan
  else if b = .nan then true
  else if asc then pvLeVal a b else pvLeVal b a

/-- `result_df.sort_values('metric_value', ascending = (sort_order == 'asc'))`.
The source's default `kind='quicksort'` does not fix the relative order
of tied rows; the embedding has to pick one concrete sort, and every
theorem below states only what holds of any comparison sort — the output
is a permutation of the input, pairwise ordered by `pvCmp`. -/
def sortByMetric (sort_order : String) (rows : List ResRow) : List ResRow :=
  List.insertionSort
    (fun a b => pvCmp (sort_order = "asc") a.metric_value b.metric_value = true) rows

/-- `df.head(n)`: the first `n` rows for positive `n`, all but the last
`-n` rows for negative `n`. -/
def pdHead (rows : List ResRow) (n : ℤ) : List ResRow :=
  if 0 < n then rows.take n.toNat else rows.take (rows.length - (-n).toNat)

/-- The `limit` step of `execute`:
`if limit and isinstance(limit, int): result_df = result_df.head(limit)` —
an absent limit and a limit of `0` (falsy) both skip truncation. -/
def applyLimit (rows : List ResRow) : Option ℤ → List ResRow
  | none => rows
  | some n => if n = 0 then rows else pdHead rows n

/-- `QueryExecutor._get_metric_name`. -/
def _get_metric_name (metric : String) : String :=
  if metric = "tpv" then "Total Payment Volume (TPV)"
  else if metric = "average_ticket" then "Average Ticket"
  else if metric = "transactions" then "Total Transactions"
  else if metric = "merchants" then "Total Merchants"
  else metric

/-- The frame produced by the filter and aggregation stages of
`QueryExecutor.execute` (steps before sorting and limiting). -/
def stageFrame (dh : DataHandler) (it : Intent) : Except Err (List ResRow) :=
  match (if it.filters.isEmpty then .ok dh.data else filter_data dh.data it.filters) with
  | .error e => .error e
  | .ok filtered =>
    if it.group_by.isEmpty then _execute_simple_query filtered it.metric
    else _execute_grouped_query filtered it.metric it.group_by

/-- `QueryExecutor.execute`.  The executor only reads the handler, so the
state is threaded through and returned unchanged; every result frame of
this engine carries a `metric_value` column, so the
`'metric_value' in result_df.columns` tests of the source are `True`. -/
def execute (dh : DataHandler) (it : Intent) : Except Err (DataHandler × QueryResult) :=
  match stageFrame dh it with
  | .error e => .error e
  | .ok df0 =>
    let df1 := if it.sort_by.getD "metric" = "metric" then
        sortByMetric (it.sort_order.getD "desc") df0
      else df0
    let df := applyLimit df1 it.limit
    .ok (dh, { data := df
               metric_value :=
                 if df.length = 1 then (df.head?).map (·.metric_value) else none
               metric_name := _get_metric_name it.metric
               explanation := it.explanation.getD "Query executed"
               query_intent := it })

/-! ### The KPI & anomaly engine (`AlertsHandler`) -/

/-- `df['day'].max()` (the defaulted value for an empty frame is never
used: every theorem about the engine assumes a loaded, non-empty frame). -/
def maxDay : List Row → ℤ
  | [] => 0
  | r :: rest => rest.foldl (fun m x => max m x.day) r.day

/-- `df[df['day'] == d]`. -/
def rowsOnDay (rows : List Row) (d : ℤ) : List Row :=
  rows.filter (fun r => r.day = d)

/-- The inner `calc_metric` of `AlertsHandler.get_daily_summary`:
metric value of one day's rows, with the average-ticket division guarded;
any metric outside the enum yields `0`. -/
def calc_metric (metric : String) (day_data : List Row) : ℚ :=
  if metric = "tpv" then sumAmount day_data
  else if metric = "average_ticket" then
    (if 0 < sumQty day_data then sumAmount day_data / (sumQty day_data : ℚ) else 0)
  else if metric = "transactions" then (sumQty day_data : ℚ)
  else 0

/-- The guarded percentage variation used throughout the alerts handler:
`(current - past) / past * 100 if past > 0 else 0`. -/
def pctVariation (current past : ℚ) : ℚ :=
  if 0 < past then (current - past) / past * 100 else 0

/-- `DailySummary` (its `date` kept as the integer day number rather than
the formatted string). -/
structure DailySummary where
  date : ℤ
  metric : String
  metric_label : String
  value_current : ℚ
  var_d1 : ℚ
  var_d7 : ℚ
  var_d30 : ℚ
  deriving DecidableEq, Repr

/-- `AlertsHandler.get_daily_summary`. -/
def get_daily_summary (rows : List Row) (metric : String) : DailySummary :=
  let last_day := maxDay rows
  let value_current := calc_metric metric (rowsOnDay rows last_day)
  let value_d1 := calc_metric metric (rowsOnDay rows (last_day - 1))
  let value_d7 := calc_metric metric (rowsOnDay rows (last_day - 7))
  let value_d30 := calc_metric metric (rowsOnDay rows (last_day - 30))
  { date := last_day
    metric := metric
    metric_label :=
      if metric = "tpv" then "Total Payment Volume"
      else if metric = "average_ticket" then "Average Ticket"
      else if metric = "transactions" then "Total Transactions"
      else "Unknown"
    value_current := value_current
    var_d1 := pctVariation value_current value_d1
    var_d7 := pctVariation value_current value_d7
    var_d30 := pctVariation value_current value_d30 }

/-- An anomaly `Alert`.  The generated human-readable `message` (a
formatted percentage string) is outside the embedding; every other field
of the source model is kept. -/
structure Alert where
  type : String
  segment : String
  segment_value : String
  metric : String
  variation : PVal
  deriving DecidableEq, Repr

/-- Membership of a row in a segment: `df[df[segment] == value]`. -/
def segMatches (seg : String) (v : Value) (r : Row) : Bool :=
  colVal r seg = some v

/-- The distinct days of a frame in ascending order:
the index of `frame.groupby('day')`. -/
def histDays (rows : List Row) : List ℤ :=
  List.insertionSort (fun a b => a ≤ b) (uniqueFirst (rows.map (·.day)))

/-- The per-day historical metric series of
`AlertsHandler._check_segment_anomalies`: per day, summed TPV, or the
summed-ratio average ticket whose division carries no zero guard. -/
def histValues (metric : String) (historical_seg : List Row) : List PVal :=
  if metric = "tpv" then
    (histDays historical_seg).map (fun d => .fin (sumAmount (rowsOnDay historical_seg d)))
  else
    (histDays historical_seg).map (fun d =>
      pvdiv (sumAmount (rowsOnDay historical_seg d)) (sumQty (rowsOnDay historical_seg d) : ℚ))

/-- The `abs(z_score) > 2` test of `_check_segment_anomalies`.
The source computes `z = (current - mean) / std if std > 0 else 0` with
`std` the sample standard deviation; since `std = sqrt var`, `std > 0`
is `var > 0` and `abs z > 2` is `(current - mean)^2 > 4 * var`, which is
how the square root is eliminated (the rationals have none).  A
non-finite variance (fewer than two days, or a non-finite day value)
makes `std > 0` false, hence `z = 0` and no breach. -/
def zBreach (current : ℚ) (hv : List PVal) : Bool :=
  match pvVar hv, pvMean hv with
  | .fin s, .fin m => decide (0 < s) && decide (4 * s < (current - m) ^ 2)
  | _, _ => false

/-- Body of the per-segment-value loop of
`AlertsHandler._check_segment_anomalies`: the emitted alert, if any. -/
def processSegValue (current_data historical_data : List Row)
    (segment metric : String) (v : Value) : Option Alert :=
  let current_seg := current_data.filter (segMatches segment v)
  let historical_seg := historical_data.filter (segMatches segment v)
  if historical_seg.isEmpty then none
  else
    let current_value : ℚ :=
      if metric = "tpv" then sumAmount current_seg
      else if 0 < sumQty current_seg then
        sumAmount current_seg / (sumQty current_seg : ℚ)
      else 0
    let historical_values := histValues metric historical_seg
    if historical_values.isEmpty then none
    else
      let hist_mean := pvMean historical_values
      let varia : PVal :=
        if pvGtZero hist_mean then
          pvscale 100 (pvdivP (pvsub (.fin current_value) hist_mean) hist_mean)
        else .fin 0
      if pvAbsGt varia 15 || zBreach current_value historical_values then
        some { type := if pvLtZero varia then "warning" else "info"
               segment := segment
               segment_value := v.display
               metric := metric
               variation := varia }
      else none

/-- `AlertsHandler._check_segment_anomalies`. -/
def _check_segment_anomalies (current_data historical_data : List Row)
    (segment metric : String) : List Alert :=
  (uniqueFirst (current_data.filterMap (fun r => colVal r segment))).filterMap
    (processSegValue current_data historical_data segment metric)

/-- `AlertsHandler.detect_anomalies`: the four segment/metric passes over
the last day against the 14-day window, concatenated in emission order. -/
def detect_anomalies (rows : List Row) : List Alert :=
  let last_day := maxDay rows
  let current_data := rowsOnDay rows last_day
  let historical_data := rows.filter (fun r => last_day - 14 ≤ r.day ∧ r.day < last_day)
  _check_segment_anomalies current_data historical_data "product" "tpv" ++
  _check_segment_anomalies current_data historical_data "entity" "tpv" ++
  _check_segment_anomalies current_data historical_data "product" "average_ticket" ++
  _check_segment_anomalies current_data historical_data "entity" "average_ticket"

/-! ### Top insights (`AlertsHandler.get_top_insights`) -/

/-- An entry of the `all_variations` candidate pool. -/
structure Cand where
  segment : String
  label : String
  tpv : ℚ
  variation : ℚ
  deriving DecidableEq, Repr

/-- `TopInsight`. -/
structure TopInsight where
  type : String
  label : String
  segment_type : String
  value : ℚ
  variation : ℚ
  deriving DecidableEq, Repr

/-- The candidates contributed by one segment dimension: values present
on the current day and on the comparison day, with positive comparison
TPV. -/
def candsFor (current_data comparison_data : List Row) (segment : String) : List Cand :=
  (uniqueFirst (current_data.filterMap (fun r => colVal r segment))).filterMap
    (fun v =>
      let current_seg := current_data.filter (segMatches segment v)
      let comparison_seg := comparison_data.filter (segMatches segment v)
      if comparison_seg.isEmpty then none
      else
        let current_tpv := sumAmount current_seg
        let comparison_tpv := sumAmount comparison_seg
        if 0 < comparison_tpv then
          some { segment := segment
                 label := v.display
                 tpv := current_tpv
                 variation := (current_tpv - comparison_tpv) / comparison_tpv * 100 }
        else none)

/-- The full `all_variations` pool over product, entity and
payment_method. -/
def all_variations (current_data comparison_data : List Row) : List Cand :=
  candsFor current_data comparison_data "product" ++
  candsFor current_data comparison_data "entity" ++
  candsFor current_data comparison_data "payment_method"

/-- Python's `min(..., key=variation)`: the first candidate with minimal
variation. -/
def minByVariation (best : Cand) : List Cand → Cand
  | [] => best
  | x :: xs => minByVariation (if x.variation < best.variation then x else best) xs

/-- Python's `max(..., key=variation)`: the first candidate with maximal
variation. -/
def maxByVariation (best : Cand) : List Cand → Cand
  | [] => best
  | x :: xs => maxByVariation (if best.variation < x.variation then x else best) xs

/-- Python's `max(..., key=tpv)`: the first candidate with maximal
current-day TPV. -/
def maxByTpv (best : Cand) : List Cand → Cand
  | [] => best
  | x :: xs => maxByTpv (if best.tpv < x.tpv then x else best) xs

/-- Packaging of a candidate as a `TopInsight`. -/
def mkInsight (t : String) (c : Cand) : TopInsight :=
  { type := t, label := c.label, segment_type := c.segment
    value := c.tpv, variation := c.variation }

/-- `period_days.get(period, 7)`: the days looked back for a period key,
defaulting to 7. -/
def topInsightDays (period : String) : ℤ :=
  if period = "d1" then 1 else if period = "d7" then 7
  else if period = "d30" then 30 else 7

/-- `AlertsHandler.get_top_insights`. -/
def get_top_insights (rows : List Row) (period : String) : List TopInsight :=
  let last_day := maxDay rows
  let comparison_day := last_day - topInsightDays period
  let current_data := rowsOnDay rows last_day
  let comparison_data := rowsOnDay rows comparison_day
  if comparison_data.isEmpty then []
  else
    match all_variations current_data comparison_data with
    | [] => []
    | c :: cs =>
      let largest_drop := minByVariation c cs
      let main_contributor := maxByTpv c cs
      let highest_growth := maxByVariation c cs
      (if largest_drop.variation < 0 then [mkInsight "largest_drop" largest_drop] else []) ++
      [mkInsight "main_contributor" main_contributor] ++
      (if 0 < highest_growth.variation then [mkInsight "highest_growth" highest_growth] else [])

/-! ### Specification-side definitions

These definitions are written from the words of the specification (not
from the source), to be compared with the embedded code above. -/

/-- Spec: metric value of a set of rows — `tpv` is `sum(amount_transacted)`,
`average_ticket` is `sum(amount_transacted) / sum(quantity_transactions)`
with `0` on a zero denominator, `transactions` is
`sum(quantity_transactions)`. -/
def specDayMetric (metric : String) (rows : List Row) : ℚ :=
  if metric = "tpv" then sumAmount rows
  else if metric = "average_ticket" then
    (if sumQty rows = 0 then 0 else sumAmount rows / (sumQty rows : ℚ))
  else (sumQty rows : ℚ)

/-- Spec: percentage variation, `(current - past) / past × 100` when
`past > 0` and `0` otherwise. -/
def specVariationPct (current past : ℚ) : ℚ :=
  if 0 < past then (current - past) / past * 100 else 0

/-- Spec: mean of a list of per-day values. -/
def specMean (xs : List ℚ) : ℚ := xs.sum / (xs.length : ℚ)

/-- Spec: sum of squared deviations from the mean. -/
def specSsq (xs : List ℚ) : ℚ := (xs.map (fun x => (x - specMean xs) ^ 2)).sum

/-- Spec: `|z| > 2` for `z = (current − mean)/std` when the sample
standard deviation `std` is positive (at least two points and a nonzero
spread), `z = 0` otherwise; stated on squares since `|z| > 2` iff
`(current − mean)² > 4·std²` and `std² = ssq/(n−1)`. -/
def specZBreach (current : ℚ) (xs : List ℚ) : Prop :=
  2 ≤ xs.length ∧ 0 < specSsq xs ∧
    4 * (specSsq xs / ((xs.length : ℚ) - 1)) < (current - specMean xs) ^ 2

/-- Spec: the anomaly condition — `|variation%| > 15` OR `|z| > 2`. -/
def specAnomaly (current : ℚ) (xs : List ℚ) : Prop :=
  15 < |specVariationPct current (specMean xs)| ∨ specZBreach current xs

/-- Spec: the per-historical-day metric values of a segment — one value
per historical calendar day present, computed with the weighted
formulas. -/
def specHistValues (metric : String) (historical_seg : List Row) : List ℚ :=
  (histDays historical_seg).map (fun d => specDayMetric metric (rowsOnDay historical_seg d))

/-- Spec: adjacent-pair comparison of two result rows at a named column,
non-decreasing for `asc` and non-increasing otherwise. -/
def cmpCellsBy (column sort_order : String) (a b : ResRow) : Bool :=
  match a.cells.lookup column, b.cells.lookup column with
  | some x, some y => if sort_order = "asc" then x.le y else y.le x
  | _, _ => false

/-- Spec: the rows of a result frame are sorted by the named column in
the given order — every adjacent pair is non-increasing (`desc`, the
default) or non-decreasing (`asc`) at that column. -/
def specSortedByColumn (column sort_order : String) : List ResRow → Bool
  | [] => true
  | [_] => true
  | a :: b :: rest =>
    cmpCellsBy column sort_order a b && specSortedByColumn column sort_order (b :: rest)

deriving instance DecidableEq for Except

/-! ### Concrete sample rows used by witnesses and counterexamples -/

/-- A PJ pix row: day 20, amount 50, one transaction. -/
def rowA : Row :=
  { day := 20, entity := "PJ", product := "pix", price_tier := "t1",
    anticipation_method := "none", payment_method := "credit",
    installments := 1, amount_transacted := 50,
    quantity_transactions := 1, quantity_of_merchants := 1 }

/-- A PF pos row: day 20, amount 80, two transactions. -/
def rowB : Row :=
  { day := 20, entity := "PF", product := "pos", price_tier := "t1",
    anticipation_method := "none", payment_method := "debit",
    installments := 1, amount_transacted := 80,
    quantity_transactions := 2, quantity_of_merchants := 1 }

/-- A PJ pix row on day 13 (seven days before `rowA`), amount 50. -/
def rowC : Row :=
  { day := 13, entity := "PJ", product := "pix", price_tier := "t1",
    anticipation_method := "none", payment_method := "credit",
    installments := 1, amount_transacted := 50,
    quantity_transactions := 1, quantity_of_merchants := 1 }

/-- A PJ pix row on day 20 with amount 100 (twice `rowC`'s figure). -/
def rowD : Row :=
  { day := 20, entity := "PJ", product := "pix", price_tier := "t1",
    anticipation_method := "none", payment_method := "credit",
    installments := 1, amount_transacted := 100,
    quantity_transactions := 1, quantity_of_merchants := 1 }

/-- A pix row with zero `quantity_transactions` and positive amount. -/
def rowZ : Row :=
  { day := 20, entity := "PJ", product := "pix", price_tier := "t1",
    anticipation_method := "none", payment_method := "credit",
    installments := 1, amount_transacted := 5,
    quantity_transactions := 0, quantity_of_merchants := 1 }

/-- A pix row on day 20: amount 10 over one transaction. -/
def rowE : Row :=
  { day := 20, entity := "PJ", product := "pix", price_tier := "t1",
    anticipation_method := "none", payment_method := "credit",
    installments := 1, amount_transacted := 10,
    quantity_transactions := 1, quantity_of_merchants := 1 }

/-- A pix row on day 13 with zero `quantity_transactions` and amount 5 —
a historical day whose average-ticket ratio is `5/0`. -/
def rowF : Row :=
  { day := 13, entity := "PJ", product := "pix", price_tier := "t1",
    anticipation_method := "none", payment_method := "credit",
    installments := 1, amount_transacted := 5,
    quantity_transactions := 0, quantity_of_merchants := 1 }

/-- A pix row on day 14: amount 10 over one transaction. -/
def rowG : Row :=
  { day := 14, entity := "PJ", product := "pix", price_tier := "t1",
    anticipation_method := "none", payment_method := "credit",
    installments := 1, amount_transacted := 10,
    quantity_transactions := 1, quantity_of_merchants := 1 }

/-! ## Theorems -/

/-! ### Helper lemmas on filtering -/

/-- Filtering only ever keeps rows of the input frame. -/
theorem filter_data_mem : ∀ (fs : List (String × FilterVal)) (rows out : List Row),
    filter_data rows fs = .ok out → ∀ r ∈ out, r ∈ rows := by
  intro fs
  induction fs with
  | nil =>
    intro rows out h r hr
    simp only [filter_data, Except.ok.injEq] at h
    exact h ▸ hr
  | cons p rest ih =>
    intro rows out h r hr
    simp only [filter_data] at h
    by_cases hc : hasColumn p.1
    · simp only [hc, if_true] at h
      exact List.mem_of_mem_filter (ih _ _ h r hr)
    · simp [hc] at h

/-- Rows surviving `filter_data` satisfy the first filter entry. -/
theorem filter_data_head_matches (c : String) (fv : FilterVal)
    (rest : List (String × FilterVal)) (rows out : List Row)
    (h : filter_data rows ((c, fv) :: rest) = .ok out) :
    ∀ r ∈ out, rowMatches c fv r := by
  intro r hr
  simp only [filter_data] at h
  by_cases hc : hasColumn c
  · simp only [hc, if_true] at h
    exact List.of_mem_filter (filter_data_mem rest _ _ h r hr)
  · simp [hc] at h

/-- C8: filtering is idempotent — applying the same filters to the frame
they produced returns exactly that frame, in the same order. -/
theorem filter_data_idempotent : ∀ (fs : List (String × FilterVal)) (rows out : List Row),
    filter_data rows fs = .ok out → filter_data out fs = .ok out := by
  intro fs
  induction fs with
  | nil =>
    intro rows out h
    simp only [filter_data, Except.ok.injEq] at h
    subst h
    rfl
  | cons p rest ih =>
    intro rows out h
    obtain ⟨c, fv⟩ := p
    have hmatch := filter_data_head_matches c fv rest rows out h
    simp only [filter_data] at h ⊢
    by_cases hc : hasColumn c
    · simp only [hc, if_true] at h ⊢
      have : out.filter (rowMatches c fv) = out := List.filter_eq_self.mpr hmatch
      rw [this]
      exact ih _ _ h
    · simp [hc] at h

/-- Witness for C8 at a concrete frame and filter set. -/
theorem filter_data_idempotent_witness :
    (filter_data [rowA, rowB] [("entity", .scalar (.s "PJ"))] = .ok [rowA]) ∧
    (filter_data [rowA] [("entity", .scalar (.s "PJ"))] = .ok [rowA]) := by
  have h1 : filter_data [rowA, rowB] [("entity", .scalar (.s "PJ"))] = .ok [rowA] := by
    decide
  exact ⟨h1, filter_data_idempotent [("entity", .scalar (.s "PJ"))] [rowA, rowB] [rowA] h1⟩

/-! ### C9: the store is never mutated -/

/-- C9: filtering and query execution leave the Dataset Store unchanged —
`filter_data` yields a new view with the handler state it received, and
`execute` returns the handler holding exactly the records it held
before. -/
theorem store_unchanged (dh : DataHandler) (fs : List (String × FilterVal)) (it : Intent) :
    (∀ dh' view, filter_data_st dh fs = .ok (dh', view) → dh'.data = dh.data) ∧
    (∀ dh' res, execute dh it = .ok (dh', res) → dh'.data = dh.data) := by
  constructor
  · intro dh' view h
    cases hf : filter_data dh.data fs with
    | error e => rw [filter_data_st, hf] at h; exact Except.noConfusion h
    | ok out =>
      simp only [filter_data_st, hf, Except.ok.injEq, Prod.mk.injEq] at h
      rw [← h.1]
  · intro dh' res h
    cases hs : stageFrame dh it with
    | error e => rw [execute, hs] at h; exact Except.noConfusion h
    | ok df =>
      simp only [execute, hs, Except.ok.injEq, Prod.mk.injEq] at h
      rw [← h.1]

/-- Witness for C9 at a concrete handler, filter set and intent. -/
theorem store_unchanged_witness :
    (filter_data_st ⟨[rowA, rowB]⟩ [("entity", .scalar (.s "PJ"))] =
      .ok (⟨[rowA, rowB]⟩, [rowA])) ∧
    (execute ⟨[rowA, rowB]⟩
        { metric := "transactions", aggregation := "sum", group_by := [], filters := [] } =
      .ok (⟨[rowA, rowB]⟩,
        { data := [{ cells := [], aggs := [], metric_value := .fin 3 }]
          metric_value := some (.fin 3)
          metric_name := "Total Transactions"
          explanation := "Query executed"
          query_intent :=
            { metric := "transactions", aggregation := "sum", group_by := [], filters := [] } })) ∧
    (DataHandler.mk [rowA, rowB]).data = [rowA, rowB] := by
  have h1 : filter_data_st ⟨[rowA, rowB]⟩ [("entity", .scalar (.s "PJ"))] =
      .ok (⟨[rowA, rowB]⟩, [rowA]) := by decide
  have h2 : execute ⟨[rowA, rowB]⟩
      { metric := "transactions", aggregation := "sum", group_by := [], filters := [] } =
      .ok (⟨[rowA, rowB]⟩,
        { data := [{ cells := [], aggs := [], metric_value := .fin 3 }]
          metric_value := some (.fin 3)
          metric_name := "Total Transactions"
          explanation := "Query executed"
          query_intent :=
            { metric := "transactions", aggregation := "sum", group_by := [], filters := [] } }) := by
    decide
  refine ⟨h1, h2, ?_⟩
  exact (store_unchanged ⟨[rowA, rowB]⟩ [("entity", .scalar (.s "PJ"))]
    { metric := "transactions", aggregation := "sum", group_by := [], filters := [] }).2 _ _ h2

/-! ### C10: limit semantics -/

/-- C10: a `limit` of `0` is treated exactly like an absent limit (all
rows kept); a positive limit keeps the first `limit` rows after sorting;
a negative limit `-k` keeps all rows except the last `k` (neither
rejected nor ignored). -/
theorem limit_semantics (dh : DataHandler) (it : Intent) (k : ℤ) :
    ((execute dh { it with limit := some 0 }).map (fun p => p.2.data) =
      (execute dh { it with limit := none }).map (fun p => p.2.data)) ∧
    (0 < k →
      (execute dh { it with limit := some k }).map (fun p => p.2.data) =
      (execute dh { it with limit := none }).map (fun p => p.2.data.take k.toNat)) ∧
    (0 < k →
      (execute dh { it with limit := some (-k) }).map (fun p => p.2.data) =
      (execute dh { it with limit := none }).map
        (fun p => p.2.data.take (p.2.data.length - k.toNat))) := by
  have hstage : ∀ x, stageFrame dh { it with limit := x } = stageFrame dh it := fun _ => rfl
  refine ⟨?_, ?_, ?_⟩
  · cases hs : stageFrame dh it with
    | error e => simp [execute, hstage, hs, Except.map]
    | ok df => simp [execute, hstage, hs, applyLimit, Except.map]
  · intro hk
    cases hs : stageFrame dh it with
    | error e => simp [execute, hstage, hs, Except.map]
    | ok df =>
      have hne : k ≠ 0 := by omega
      simp [execute, hstage, hs, applyLimit, hne, pdHead, hk, Except.map]
  · intro hk
    cases hs : stageFrame dh it with
    | error e => simp [execute, hstage, hs, Except.map]
    | ok df =>
      have hne : -k ≠ 0 := by omega
      have hnk : ¬ (0 < -k) := by omega
      simp [execute, hstage, hs, applyLimit, hne, pdHead, hnk, Except.map]

/-- Witness for C10 at a concrete handler, intent and `k = 1`. -/
theorem limit_semantics_witness :
    ((execute ⟨[rowA, rowB]⟩
        { metric := "transactions", aggregation := "sum", group_by := ["product"],
          filters := [], limit := some 0 }).map (fun p => p.2.data) =
      (execute ⟨[rowA, rowB]⟩
        { metric := "transactions", aggregation := "sum", group_by := ["product"],
          filters := [], limit := none }).map (fun p => p.2.data)) ∧
    ((execute ⟨[rowA, rowB]⟩
        { metric := "transactions", aggregation := "sum", group_by := ["product"],
          filters := [], limit := some 1 }).map (fun p => p.2.data) =
      (execute ⟨[rowA, rowB]⟩
        { metric := "transactions", aggregation := "sum", group_by := ["product"],
          filters := [], limit := none }).map (fun p => p.2.data.take 1)) ∧
    ((execute ⟨[rowA, rowB]⟩
        { metric := "transactions", aggregation := "sum", group_by := ["product"],
          filters := [], limit := some (-1) }).map (fun p => p.2.data) =
      (execute ⟨[rowA, rowB]⟩
        { metric := "transactions", aggregation := "sum", group_by := ["product"],
          filters := [], limit := none }).map
        (fun p => p.2.data.take (p.2.data.length - 1))) := by
  obtain ⟨w0, w1, w2⟩ := limit_semantics ⟨[rowA, rowB]⟩
    { metric := "transactions", aggregation := "sum", group_by := ["product"], filters := [] } 1
  exact ⟨w0, w1 (by decide), w2 (by decide)⟩

/-! ### C7: error conditions -/

/-- A filter whose keys are all schema columns never fails. -/
theorem filter_data_ok_of_valid : ∀ (fs : List (String × FilterVal)) (rows : List Row),
    (∀ p ∈ fs, hasColumn p.1) → ∃ out, filter_data rows fs = .ok out := by
  intro fs
  induction fs with
  | nil => intro rows _; exact ⟨rows, rfl⟩
  | cons p rest ih =>
    intro rows hv
    obtain ⟨c, fv⟩ := p
    have hc : hasColumn c := hv (c, fv) (List.mem_cons_self _ _)
    obtain ⟨out, hout⟩ :=
      ih (rows.filter (rowMatches c fv)) (fun q hq => hv q (List.mem_cons_of_mem _ hq))
    exact ⟨out, by simp only [filter_data, hc, if_true]; exact hout⟩

/-- A filter with a key outside the schema fails with a schema error
naming an unknown column. -/
theorem filter_data_error_of_invalid : ∀ (fs : List (String × FilterVal)) (rows : List Row),
    (∃ p ∈ fs, ¬ hasColumn p.1) →
    ∃ c, filter_data rows fs = .error (.schemaError c) ∧ ¬ hasColumn c := by
  intro fs
  induction fs with
  | nil => intro rows h; simp at h
  | cons p rest ih =>
    intro rows h
    obtain ⟨c, fv⟩ := p
    by_cases hc : hasColumn c
    · obtain ⟨q, hq, hbad⟩ := h
      rcases List.mem_cons.mp hq with rfl | hq'
      · exact absurd hc hbad
      · obtain ⟨c', h1, h2⟩ := ih (rows.filter (rowMatches c fv)) ⟨q, hq', hbad⟩
        exact ⟨c', by simp only [filter_data, hc, if_true]; exact h1, h2⟩
    · refine ⟨c, ?_, hc⟩
      simp only [filter_data, hc]
      simp

/-- C7: an unsupported metric makes `execute` fail with the
unsupported-metric error naming the metric (grouped or not), and a filter
key that is no column makes it fail with a schema error naming an unknown
column — neither is defaulted or dropped. -/
theorem execute_error_conditions (dh : DataHandler) (it : Intent) :
    (it.metric ∉ (["tpv", "average_ticket", "transactions", "merchants"] : List String) →
      (∀ p ∈ it.filters, hasColumn p.1) →
      execute dh it = .error (.unsupportedMetric it.metric)) ∧
    ((∃ p ∈ it.filters, ¬ hasColumn p.1) →
      ∃ c, execute dh it = .error (.schemaError c) ∧ ¬ hasColumn c) := by
  constructor
  · intro hm hv
    have h1 : ¬ it.metric = "tpv" := fun h => hm (by simp [h])
    have h2 : ¬ it.metric = "average_ticket" := fun h => hm (by simp [h])
    have h3 : ¬ it.metric = "transactions" := fun h => hm (by simp [h])
    have h4 : ¬ it.metric = "merchants" := fun h => hm (by simp [h])
    obtain ⟨out, hout⟩ := filter_data_ok_of_valid it.filters dh.data hv
    have hstage : stageFrame dh it = .error (.unsupportedMetric it.metric) := by
      unfold stageFrame
      by_cases hf : it.filters.isEmpty <;>
        by_cases hg : it.group_by.isEmpty <;>
          simp [hf, hg, hout, _execute_simple_query, _execute_grouped_query, h1, h2, h3, h4]
    simp [execute, hstage]
  · intro hbad
    obtain ⟨c, hc, hcbad⟩ := filter_data_error_of_invalid it.filters dh.data hbad
    have hne : it.filters.isEmpty = false := by
      obtain ⟨p, hp, _⟩ := hbad
      cases hfs : it.filters with
      | nil => rw [hfs] at hp; simp at hp
      | cons a l => simp
    have hstage : stageFrame dh it = .error (.schemaError c) := by
      unfold stageFrame
      simp [hne, hc]
    refine ⟨c, ?_, hcbad⟩
    simp [execute, hstage]

/-- Witness for C7: a bogus metric errors with and without grouping; a
bogus filter column errors with a schema error. -/
theorem execute_error_conditions_witness :
    (execute ⟨[rowA]⟩
        { metric := "foo", aggregation := "sum", group_by := [], filters := [] } =
      .error (.unsupportedMetric "foo")) ∧
    (execute ⟨[rowA]⟩
        { metric := "foo", aggregation := "sum", group_by := ["product"], filters := [] } =
      .error (.unsupportedMetric "foo")) ∧
    (∃ c, execute ⟨[rowA]⟩
        { metric := "tpv", aggregation := "sum", group_by := [],
          filters := [("nope", .scalar (.s "x"))] } =
        .error (.schemaError c) ∧ ¬ hasColumn c) := by
  refine ⟨?_, ?_, ?_⟩
  · exact (execute_error_conditions ⟨[rowA]⟩
      { metric := "foo", aggregation := "sum", group_by := [], filters := [] }).1
      (by decide) (by decide)
  · exact (execute_error_conditions ⟨[rowA]⟩
      { metric := "foo", aggregation := "sum", group_by := ["product"], filters := [] }).1
      (by decide) (by decide)
  · exact (execute_error_conditions ⟨[rowA]⟩
      { metric := "tpv", aggregation := "sum", group_by := [],
        filters := [("nope", .scalar (.s "x"))] }).2
      ⟨("nope", .scalar (.s "x")), by decide, by decide⟩

/-! ### C2: empty group_by -/

/-- Counterexample to C2 as stated: over a one-row store, a filter
matching nothing gives an empty filtered set, yet the ungrouped query
returns one row (with `metric_value` 0), not zero rows. -/
theorem empty_groupby_counterexample :
    (filter_data [rowA] [("entity", .scalar (.s "PF"))] = .ok []) ∧
    ((execute ⟨[rowA]⟩
        { metric := "transactions", aggregation := "sum", group_by := [],
          filters := [("entity", .scalar (.s "PF"))] }).map
      (fun p => p.2.data.length) = .ok 1) := by
  decide

/-- C2 (amended): with an empty `group_by`, a supported metric, schema
filter keys and no negative limit, the result always has exactly one row,
and that row carries only `metric_value` (no key and no aggregation
columns) — also when the filtered set is empty, in which case its
`metric_value` is `0`. -/
theorem empty_groupby_one_row (dh : DataHandler) (it : Intent)
    (hgb : it.group_by = [])
    (hm : it.metric ∈ (["tpv", "average_ticket", "transactions", "merchants"] : List String))
    (hv : ∀ p ∈ it.filters, hasColumn p.1)
    (hl : ∀ k, it.limit = some k → 0 ≤ k) :
    ∃ res row, execute dh it = .ok (dh, res) ∧ res.data = [row] ∧
      row.cells = [] ∧ row.aggs = [] ∧
      (filter_data dh.data it.filters = .ok [] → row.metric_value = .fin 0) := by
  obtain ⟨out, hout⟩ := filter_data_ok_of_valid it.filters dh.data hv
  have hm' : it.metric = "tpv" ∨ it.metric = "average_ticket" ∨
      it.metric = "transactions" ∨ it.metric = "merchants" := by simpa using hm
  have hsimple : ∀ rows : List Row, ∃ v,
      _execute_simple_query rows it.metric = .ok [⟨[], [], v⟩] ∧
        (rows = [] → v = .fin 0) := by
    intro rows
    rcases hm' with h | h | h | h
    · exact ⟨.fin (calculate_tpv rows), by simp [_execute_simple_query, h],
        by rintro rfl; simp [calculate_tpv, sumAmount]⟩
    · exact ⟨.fin (calculate_average_ticket rows), by simp [_execute_simple_query, h],
        by rintro rfl; simp [calculate_average_ticket, sumQty]⟩
    · exact ⟨.fin (sumQty rows : ℚ), by simp [_execute_simple_query, h],
        by rintro rfl; simp [sumQty]⟩
    · exact ⟨.fin (sumMerch rows : ℚ), by simp [_execute_simple_query, h],
        by rintro rfl; simp [sumMerch]⟩
  have hfiltered : ∃ filtered,
      (if it.filters.isEmpty then Except.ok dh.data else filter_data dh.data it.filters) =
        .ok filtered := by
    by_cases hf : it.filters.isEmpty <;> simp [hf, hout]
  obtain ⟨filtered, hfil⟩ := hfiltered
  have hfe : filter_data dh.data it.filters = .ok [] → filtered = [] := by
    intro h0
    by_cases hf : it.filters.isEmpty
    · have hnil : it.filters = [] := by rwa [List.isEmpty_iff] at hf
      rw [hnil] at h0
      simp only [filter_data, Except.ok.injEq] at h0
      rw [if_pos hf] at hfil
      simp only [Except.ok.injEq] at hfil
      rw [← hfil, h0]
    · rw [if_neg hf] at hfil
      rw [hfil] at h0
      exact Except.ok.inj h0
  obtain ⟨v, hs, hv0⟩ := hsimple filtered
  have hstage : stageFrame dh it = .ok [⟨[], [], v⟩] := by
    unfold stageFrame
    rw [hfil]
    simp [hgb, hs]
  have hsort : ∀ so, sortByMetric so [(⟨[], [], v⟩ : ResRow)] = [⟨[], [], v⟩] := by
    intro so; simp [sortByMetric]
  have hlim : applyLimit [(⟨[], [], v⟩ : ResRow)] it.limit = [⟨[], [], v⟩] := by
    cases hL : it.limit with
    | none => rfl
    | some k =>
      have hk0 : 0 ≤ k := hl k hL
      by_cases hk : k = 0
      · simp [applyLimit, hk]
      · have hkpos : 0 < k := lt_of_le_of_ne hk0 (Ne.symm hk)
        simp only [applyLimit, hk, if_false, pdHead, hkpos, if_true]
        apply List.take_of_length_le
        simp
        omega
  refine ⟨{ data := [⟨[], [], v⟩], metric_value := some v,
            metric_name := _get_metric_name it.metric,
            explanation := it.explanation.getD "Query executed",
            query_intent := it }, ⟨[], [], v⟩, ?_, rfl, rfl, rfl,
    fun h0 => hv0 (hfe h0)⟩
  simp [execute, hstage, hsort, hlim]

/-- Witness for C2 (amended) at a concrete store and intent whose
filtered set is empty: one row, only `metric_value`, and its value is
`0`. -/
theorem empty_groupby_one_row_witness :
    ∃ res row, execute ⟨[rowA]⟩
        { metric := "transactions", aggregation := "sum", group_by := [],
          filters := [("entity", .scalar (.s "PF"))] } = .ok (⟨[rowA]⟩, res) ∧
      res.data = [row] ∧ row.cells = [] ∧ row.aggs = [] ∧
      row.metric_value = .fin 0 := by
  obtain ⟨res, row, h1, h2, h3, h4, h5⟩ := empty_groupby_one_row ⟨[rowA]⟩
    { metric := "transactions", aggregation := "sum", group_by := [],
      filters := [("entity", .scalar (.s "PF"))] }
    (by decide) (by decide) (by decide) (by intro k hk; cases hk)
  exact ⟨res, row, h1, h2, h3, h4, h5 (by decide)⟩

/-! ### C1: grouped average_ticket at a zero denominator -/

/-- Evaluation of the grouped `average_ticket` path at a group whose
`quantity_transactions` sum to `0` and whose amount is positive: the
unguarded column division yields `inf` (not the `0` of the spec table and
of the ungrouped `calculate_average_ticket` path). -/
theorem grouped_average_ticket_unguarded :
    ((execute ⟨[rowZ]⟩
        { metric := "average_ticket", aggregation := "sum", group_by := ["product"],
          filters := [] }).map (fun p => p.2.data.map (·.metric_value)) =
      .ok [PVal.inf]) ∧
    PVal.inf ≠ PVal.fin 0 ∧
    calculate_average_ticket [rowZ] = 0 := by
  refine ⟨?_, by decide, by decide⟩
  norm_num [execute, stageFrame, _execute_grouped_query, checkGroupCols, hasColumn,
    columnNames, groups, uniqueFirst, uniqueFirstAux, rowKey, colVal, sumAmount, sumQty,
    pvdiv, applyLimit, sortByMetric, List.insertionSort, List.orderedInsert, pvCmp,
    Except.map, rowZ]
  decide

/-! ### C5: the daily summary -/

/-- The inner `calc_metric` agrees with the specification formula on
frames with non-negative transaction counts. -/
theorem calc_metric_eq_spec (metric : String) (day_data : List Row)
    (hm : metric ∈ (["tpv", "average_ticket", "transactions"] : List String))
    (hq : 0 ≤ sumQty day_data) :
    calc_metric metric day_data = specDayMetric metric day_data := by
  have hm' : metric = "tpv" ∨ metric = "average_ticket" ∨ metric = "transactions" := by
    simpa using hm
  rcases hm' with h | h | h
  · simp [calc_metric, specDayMetric, h]
  · subst h
    rcases lt_or_eq_of_le hq with hlt | heq
    · have h0 : sumQty day_data ≠ 0 := by omega
      simp [calc_metric, specDayMetric, hlt, h0]
    · simp [calc_metric, specDayMetric, ← heq]
  · simp [calc_metric, specDayMetric, h]

/-- Sub-frames of a non-negative-count frame have non-negative count
sums. -/
theorem sumQty_nonneg (rows : List Row) (d : ℤ)
    (hq : ∀ r ∈ rows, 0 ≤ r.quantity_transactions) :
    0 ≤ sumQty (rowsOnDay rows d) := by
  apply List.sum_nonneg
  intro x hx
  obtain ⟨r, hr, rfl⟩ := List.mem_map.mp hx
  exact hq r (List.mem_of_mem_filter hr)

/-- An entirely absent day carries the metric value zero. -/
theorem specDayMetric_absent (metric : String) (rows : List Row) (d : ℤ)
    (habs : ∀ r ∈ rows, r.day ≠ d) :
    specDayMetric metric (rowsOnDay rows d) = 0 := by
  have hnil : rowsOnDay rows d = [] := by
    apply List.filter_eq_nil_iff.mpr
    intro r hr
    simpa using habs r hr
  simp [hnil, specDayMetric, sumAmount, sumQty]

/-- C5: for metrics tpv, average_ticket and transactions, the daily
summary's current value is the metric over exactly the rows of the
maximum day, each `var_dk` is the guarded percentage variation against
the metric over exactly the rows `k` days earlier, and a comparison day
entirely absent from the dataset contributes value `0` and variation `0`. -/
theorem daily_summary_correct (rows : List Row) (metric : String)
    (_hne : rows ≠ [])
    (hm : metric ∈ (["tpv", "average_ticket", "transactions"] : List String))
    (hq : ∀ r ∈ rows, 0 ≤ r.quantity_transactions) :
    ((get_daily_summary rows metric).value_current =
        specDayMetric metric (rowsOnDay rows (maxDay rows))) ∧
    ((get_daily_summary rows metric).var_d1 =
        specVariationPct (specDayMetric metric (rowsOnDay rows (maxDay rows)))
          (specDayMetric metric (rowsOnDay rows (maxDay rows - 1)))) ∧
    ((get_daily_summary rows metric).var_d7 =
        specVariationPct (specDayMetric metric (rowsOnDay rows (maxDay rows)))
          (specDayMetric metric (rowsOnDay rows (maxDay rows - 7)))) ∧
    ((get_daily_summary rows metric).var_d30 =
        specVariationPct (specDayMetric metric (rowsOnDay rows (maxDay rows)))
          (specDayMetric metric (rowsOnDay rows (maxDay rows - 30)))) ∧
    (∀ k : ℤ, (∀ r ∈ rows, r.day ≠ maxDay rows - k) →
        specDayMetric metric (rowsOnDay rows (maxDay rows - k)) = 0 ∧
        specVariationPct (specDayMetric metric (rowsOnDay rows (maxDay rows)))
          (specDayMetric metric (rowsOnDay rows (maxDay rows - k))) = 0) := by
  have hc : ∀ d, calc_metric metric (rowsOnDay rows d) = specDayMetric metric (rowsOnDay rows d) :=
    fun d => calc_metric_eq_spec metric (rowsOnDay rows d) hm (sumQty_nonneg rows d hq)
  refine ⟨?_, ?_, ?_, ?_, ?_⟩
  · simp [get_daily_summary, hc]
  · simp [get_daily_summary, hc, pctVariation, specVariationPct]
  · simp [get_daily_summary, hc, pctVariation, specVariationPct]
  · simp [get_daily_summary, hc, pctVariation, specVariationPct]
  · intro k habs
    refine ⟨specDayMetric_absent metric rows _ habs, ?_⟩
    rw [specDayMetric_absent metric rows _ habs]
    simp [specVariationPct]

/-- Witness for C5 on a two-day dataset (day 13 is 7 days before day 20;
days 19 and day −10 are absent). -/
theorem daily_summary_correct_witness :
    ((get_daily_summary [rowA, rowC] "tpv").value_current =
        specDayMetric "tpv" (rowsOnDay [rowA, rowC] (maxDay [rowA, rowC]))) ∧
    ((get_daily_summary [rowA, rowC] "tpv").var_d1 = 0) := by
  obtain ⟨h1, h2, h3, h4, h5⟩ := daily_summary_correct [rowA, rowC] "tpv"
    (by decide) (by decide) (by decide)
  refine ⟨h1, ?_⟩
  have habs : ∀ r ∈ ([rowA, rowC] : List Row), r.day ≠ maxDay [rowA, rowC] - 1 := by decide
  rw [h2, (h5 1 habs).2]

/-! ### C6: top insights -/

/-- The running minimum is one of the candidates. -/
theorem minByVariation_mem : ∀ (l : List Cand) (best : Cand),
    minByVariation best l ∈ best :: l := by
  intro l
  induction l with
  | nil => intro best; simp [minByVariation]
  | cons y ys ih =>
    intro best
    simp only [minByVariation]
    rcases List.mem_cons.mp (ih (if y.variation < best.variation then y else best)) with h | h
    · rw [h]
      by_cases hc : y.variation < best.variation
      · rw [if_pos hc]; exact List.mem_cons_of_mem _ (List.mem_cons_self _ _)
      · rw [if_neg hc]; exact List.mem_cons_self _ _
    · exact List.mem_cons_of_mem _ (List.mem_cons_of_mem _ h)

/-- The running minimum is a lower bound of the candidates. -/
theorem minByVariation_le : ∀ (l : List Cand) (best : Cand),
    ∀ x ∈ best :: l, (minByVariation best l).variation ≤ x.variation := by
  intro l
  induction l with
  | nil =>
    intro best x hx
    rcases List.mem_cons.mp hx with rfl | hx'
    · simp [minByVariation]
    · simp at hx'
  | cons y ys ih =>
    intro best x hx
    simp only [minByVariation]
    have hle : (if y.variation < best.variation then y else best).variation ≤ best.variation ∧
        (if y.variation < best.variation then y else best).variation ≤ y.variation := by
      by_cases hc : y.variation < best.variation
      · rw [if_pos hc]; exact ⟨le_of_lt hc, le_refl _⟩
      · rw [if_neg hc]; exact ⟨le_refl _, le_of_not_lt hc⟩
    have hhead := ih (if y.variation < best.variation then y else best) _
      (List.mem_cons_self _ _)
    rcases List.mem_cons.mp hx with rfl | hx'
    · exact le_trans hhead hle.1
    · rcases List.mem_cons.mp hx' with rfl | hx''
      · exact le_trans hhead hle.2
      · exact ih _ x (List.mem_cons_of_mem _ hx'')

/-- The running maximum (by variation) is one of the candidates. -/
theorem maxByVariation_mem : ∀ (l : List Cand) (best : Cand),
    maxByVariation best l ∈ best :: l := by
  intro l
  induction l with
  | nil => intro best; simp [maxByVariation]
  | cons y ys ih =>
    intro best
    simp only [maxByVariation]
    rcases List.mem_cons.mp (ih (if best.variation < y.variation then y else best)) with h | h
    · rw [h]
      by_cases hc : best.variation < y.variation
      · rw [if_pos hc]; exact List.mem_cons_of_mem _ (List.mem_cons_self _ _)
      · rw [if_neg hc]; exact List.mem_cons_self _ _
    · exact List.mem_cons_of_mem _ (List.mem_cons_of_mem _ h)

/-- The running maximum (by variation) is an upper bound. -/
theorem maxByVariation_ge : ∀ (l : List Cand) (best : Cand),
    ∀ x ∈ best :: l, x.variation ≤ (maxByVariation best l).variation := by
  intro l
  induction l with
  | nil =>
    intro best x hx
    rcases List.mem_cons.mp hx with rfl | hx'
    · simp [maxByVariation]
    · simp at hx'
  | cons y ys ih =>
    intro best x hx
    simp only [maxByVariation]
    have hle : best.variation ≤ (if best.variation < y.variation then y else best).variation ∧
        y.variation ≤ (if best.variation < y.variation then y else best).variation := by
      by_cases hc : best.variation < y.variation
      · rw [if_pos hc]; exact ⟨le_of_lt hc, le_refl _⟩
      · rw [if_neg hc]; exact ⟨le_refl _, le_of_not_lt hc⟩
    have hhead := ih (if best.variation < y.variation then y else best) _
      (List.mem_cons_self _ _)
    rcases List.mem_cons.mp hx with rfl | hx'
    · exact le_trans hle.1 hhead
    · rcases List.mem_cons.mp hx' with rfl | hx''
      · exact le_trans hle.2 hhead
      · exact ih _ x (List.mem_cons_of_mem _ hx'')

/-- The running maximum (by TPV) is one of the candidates. -/
theorem maxByTpv_mem : ∀ (l : List Cand) (best : Cand),
    maxByTpv best l ∈ best :: l := by
  intro l
  induction l with
  | nil => intro best; simp [maxByTpv]
  | cons y ys ih =>
    intro best
    simp only [maxByTpv]
    rcases List.mem_cons.mp (ih (if best.tpv < y.tpv then y else best)) with h | h
    · rw [h]
      by_cases hc : best.tpv < y.tpv
      · rw [if_pos hc]; exact List.mem_cons_of_mem _ (List.mem_cons_self _ _)
      · rw [if_neg hc]; exact List.mem_cons_self _ _
    · exact List.mem_cons_of_mem _ (List.mem_cons_of_mem _ h)

/-- The running maximum (by TPV) is an upper bound. -/
theorem maxByTpv_ge : ∀ (l : List Cand) (best : Cand),
    ∀ x ∈ best :: l, x.tpv ≤ (maxByTpv best l).tpv := by
  intro l
  induction l with
  | nil =>
    intro best x hx
    rcases List.mem_cons.mp hx with rfl | hx'
    · simp [maxByTpv]
    · simp at hx'
  | cons y ys ih =>
    intro best x hx
    simp only [maxByTpv]
    have hle : best.tpv ≤ (if best.tpv < y.tpv then y else best).tpv ∧
        y.tpv ≤ (if best.tpv < y.tpv then y else best).tpv := by
      by_cases hc : best.tpv < y.tpv
      · rw [if_pos hc]; exact ⟨le_of_lt hc, le_refl _⟩
      · rw [if_neg hc]; exact ⟨le_refl _, le_of_not_lt hc⟩
    have hhead := ih (if best.tpv < y.tpv then y else best) _ (List.mem_cons_self _ _)
    rcases List.mem_cons.mp hx with rfl | hx'
    · exact le_trans hle.1 hhead
    · rcases List.mem_cons.mp hx' with rfl | hx''
      · exact le_trans hle.2 hhead
      · exact ih _ x (List.mem_cons_of_mem _ hx'')

/-- With an empty comparison frame there are no candidates. -/
theorem candsFor_nil_comp (cur : List Row) (seg : String) : candsFor cur [] seg = [] := by
  unfold candsFor
  rw [List.filterMap_eq_nil_iff]
  intro v _
  simp

/-- With an empty comparison frame the candidate pool is empty. -/
theorem all_variations_nil_comp (cur : List Row) : all_variations cur [] = [] := by
  simp [all_variations, candsFor_nil_comp]

/-- C6: over the candidate pool (segment values present on both the
current and the comparison day, with positive comparison TPV): no
negative variation means no `largest_drop` entry; no positive variation
means no `highest_growth` entry; a non-empty pool always produces a
`main_contributor` entry built from a pool candidate of maximal
current-day TPV. -/
theorem top_insights_correct (rows : List Row) (period : String) :
    ((∀ c ∈ all_variations (rowsOnDay rows (maxDay rows))
          (rowsOnDay rows (maxDay rows - topInsightDays period)), 0 ≤ c.variation) →
      ∀ t ∈ get_top_insights rows period, t.type ≠ "largest_drop") ∧
    ((∀ c ∈ all_variations (rowsOnDay rows (maxDay rows))
          (rowsOnDay rows (maxDay rows - topInsightDays period)), c.variation ≤ 0) →
      ∀ t ∈ get_top_insights rows period, t.type ≠ "highest_growth") ∧
    (all_variations (rowsOnDay rows (maxDay rows))
        (rowsOnDay rows (maxDay rows - topInsightDays period)) ≠ [] →
      ∃ cand ∈ all_variations (rowsOnDay rows (maxDay rows))
          (rowsOnDay rows (maxDay rows - topInsightDays period)),
        (∀ x ∈ all_variations (rowsOnDay rows (maxDay rows))
            (rowsOnDay rows (maxDay rows - topInsightDays period)), x.tpv ≤ cand.tpv) ∧
        mkInsight "main_contributor" cand ∈ get_top_insights rows period) := by
  set cur := rowsOnDay rows (maxDay rows) with hcur
  set comp := rowsOnDay rows (maxDay rows - topInsightDays period) with hcompdef
  set pool := all_variations cur comp with hpool
  by_cases hce : comp.isEmpty
  · have hcompnil : comp = [] := by
      rwa [List.isEmpty_iff] at hce
    have hpoolnil : pool = [] := by rw [hpool, hcompnil]; exact all_variations_nil_comp cur
    have hres : get_top_insights rows period = [] := by
      unfold get_top_insights
      simp only [← hcur, ← hcompdef, hce, if_true]
    refine ⟨?_, ?_, ?_⟩
    · intro _ t ht; rw [hres] at ht; simp at ht
    · intro _ t ht; rw [hres] at ht; simp at ht
    · intro hne; exact absurd hpoolnil hne
  · have hce' : comp.isEmpty = false := by
      cases h : comp.isEmpty with
      | false => rfl
      | true => exact absurd h hce
    cases hp : pool with
    | nil =>
      have hres : get_top_insights rows period = [] := by
        unfold get_top_insights
        simp only [← hcur, ← hcompdef, hce', Bool.false_eq_true, if_false, ← hpool, hp]
      refine ⟨?_, ?_, ?_⟩
      · intro _ t ht; rw [hres] at ht; simp at ht
      · intro _ t ht; rw [hres] at ht; simp at ht
      · intro hne; exact absurd hp (by simp at hne)
    | cons c cs =>
      have hres : get_top_insights rows period =
          (if (minByVariation c cs).variation < 0 then
            [mkInsight "largest_drop" (minByVariation c cs)] else []) ++
          [mkInsight "main_contributor" (maxByTpv c cs)] ++
          (if 0 < (maxByVariation c cs).variation then
            [mkInsight "highest_growth" (maxByVariation c cs)] else []) := by
        unfold get_top_insights
        simp only [← hcur, ← hcompdef, hce', Bool.false_eq_true, if_false, ← hpool, hp]
      refine ⟨?_, ?_, ?_⟩
      · intro hvar t ht
        rw [hres] at ht
        have hd : ¬ (minByVariation c cs).variation < 0 :=
          not_lt.mpr (hvar _ (hp ▸ minByVariation_mem cs c))
        rw [if_neg hd] at ht
        simp only [List.nil_append, List.mem_append, List.mem_singleton] at ht
        rcases ht with rfl | ht
        · simp [mkInsight]
        · by_cases hg : 0 < (maxByVariation c cs).variation
          · rw [if_pos hg] at ht
            simp only [List.mem_singleton] at ht
            subst ht
            simp [mkInsight]
          · rw [if_neg hg] at ht
            simp at ht
      · intro hvar t ht
        rw [hres] at ht
        have hg : ¬ 0 < (maxByVariation c cs).variation :=
          not_lt.mpr (hvar _ (hp ▸ maxByVariation_mem cs c))
        rw [if_neg hg] at ht
        simp only [List.append_nil, List.mem_append, List.mem_singleton] at ht
        rcases ht with ht | rfl
        · by_cases hd : (minByVariation c cs).variation < 0
          · rw [if_pos hd] at ht
            simp only [List.mem_singleton] at ht
            subst ht
            simp [mkInsight]
          · rw [if_neg hd] at ht
            simp at ht
        · simp [mkInsight]
      · intro _
        refine ⟨maxByTpv c cs, hp ▸ maxByTpv_mem cs c, ?_, ?_⟩
        · intro x hx
          exact maxByTpv_ge cs c x (hp ▸ hx)
        · rw [hres]
          simp

/-- Witness for C6 on a dataset whose current and comparison days carry
identical figures (every candidate has variation 0 and a non-empty
pool). -/
theorem top_insights_correct_witness :
    (∀ t ∈ get_top_insights [rowA, rowC] "d7", t.type ≠ "largest_drop") ∧
    (∀ t ∈ get_top_insights [rowA, rowC] "d7", t.type ≠ "highest_growth") ∧
    (∃ cand ∈ all_variations (rowsOnDay [rowA, rowC] (maxDay [rowA, rowC]))
        (rowsOnDay [rowA, rowC] (maxDay [rowA, rowC] - topInsightDays "d7")),
      (∀ x ∈ all_variations (rowsOnDay [rowA, rowC] (maxDay [rowA, rowC]))
          (rowsOnDay [rowA, rowC] (maxDay [rowA, rowC] - topInsightDays "d7")),
        x.tpv ≤ cand.tpv) ∧
      mkInsight "main_contributor" cand ∈ get_top_insights [rowA, rowC] "d7") := by
  obtain ⟨h1, h2, h3⟩ := top_insights_correct [rowA, rowC] "d7"
  have hpool : all_variations (rowsOnDay [rowA, rowC] (maxDay [rowA, rowC]))
      (rowsOnDay [rowA, rowC] (maxDay [rowA, rowC] - topInsightDays "d7")) =
      [⟨"product", "pix", 50, 0⟩, ⟨"entity", "PJ", 50, 0⟩,
       ⟨"payment_method", "credit", 50, 0⟩] := by
    simp [all_variations, candsFor, rowsOnDay, maxDay, topInsightDays, uniqueFirst,
      uniqueFirstAux, colVal, segMatches, sumAmount, rowA, rowC, Value.display]
  refine ⟨h1 ?_, h2 ?_, h3 ?_⟩
  · rw [hpool]; decide
  · rw [hpool]; decide
  · rw [hpool]; decide

/-! ### C3: sorting -/

/-- The sort comparator is total. -/
theorem pvCmp_total (asc : Bool) (a b : PVal) :
    pvCmp asc a b = true ∨ pvCmp asc b a = true := by
  cases a <;> cases b <;> cases asc <;>
    simp [pvCmp, pvLeVal] <;> exact le_total _ _

/-- The sort comparator is transitive. -/
theorem pvCmp_trans (asc : Bool) (a b c : PVal) :
    pvCmp asc a b = true → pvCmp asc b c = true → pvCmp asc a c = true := by
  cases a <;> cases b <;> cases c <;> cases asc <;>
    simp [pvCmp, pvLeVal] <;> intros <;> linarith

/-- Counterexample to C3 as stated: with `sort_by` naming the real result
column `product` and the default descending order, the source applies no
sort at all — the result stays in ascending group-key emission order
(`pix` before `pos`), which is not descending order at `product`. -/
theorem sort_by_column_counterexample :
    (execute ⟨[rowA, rowB]⟩
        { metric := "transactions", aggregation := "sum", group_by := ["product"],
          filters := [], sort_by := some "product" } =
      .ok (⟨[rowA, rowB]⟩,
        { data := [{ cells := [("product", .s "pix")],
                     aggs := [("quantity_transactions", 1)], metric_value := .fin 1 },
                   { cells := [("product", .s "pos")],
                     aggs := [("quantity_transactions", 2)], metric_value := .fin 2 }]
          metric_value := none
          metric_name := "Total Transactions"
          explanation := "Query executed"
          query_intent :=
            { metric := "transactions", aggregation := "sum", group_by := ["product"],
              filters := [], sort_by := some "product" } })) ∧
    ¬ specSortedByColumn "product" "desc"
        [{ cells := [("product", .s "pix")],
           aggs := [("quantity_transactions", 1)], metric_value := .fin 1 },
         { cells := [("product", .s "pos")],
           aggs := [("quantity_transactions", 2)], metric_value := .fin 2 }] := by
  constructor
  · decide
  · decide

/-- C3 (amended): when `sort_by` is `metric` (also its default) the
result is a permutation of the aggregation frame sorted by
`metric_value` per `sort_order` (descending by default) — the relative
order of tied rows is implementation-defined (`sort_values` defaults to
quicksort) and deliberately not constrained here; when `sort_by` names
anything else — in particular a real result column — no sort is applied
and the rows stay in aggregation emission order.  Stated for intents
without a limit, which would only truncate afterwards. -/
theorem sort_semantics (dh : DataHandler) (it : Intent) (g : List ResRow)
    (hl : it.limit = none)
    (hstage : stageFrame dh it = .ok g) :
    (it.sort_by.getD "metric" = "metric" →
      ∃ res, execute dh it = .ok (dh, res) ∧
        res.data.Perm g ∧
        res.data.Pairwise (fun a b =>
          pvCmp (it.sort_order.getD "desc" = "asc") a.metric_value b.metric_value = true)) ∧
    (it.sort_by.getD "metric" ≠ "metric" →
      ∃ res, execute dh it = .ok (dh, res) ∧ res.data = g) := by
  constructor
  · intro hsb
    refine ⟨{ data := sortByMetric (it.sort_order.getD "desc") g
              metric_value :=
                if (sortByMetric (it.sort_order.getD "desc") g).length = 1 then
                  ((sortByMetric (it.sort_order.getD "desc") g).head?).map (·.metric_value)
                else none
              metric_name := _get_metric_name it.metric
              explanation := it.explanation.getD "Query executed"
              query_intent := it }, ?_, ?_, ?_⟩
    · simp [execute, hstage, hsb, hl, applyLimit]
    · exact List.perm_insertionSort _ g
    · haveI : IsTotal ResRow (fun a b : ResRow =>
          pvCmp (it.sort_order.getD "desc" = "asc") a.metric_value b.metric_value = true) :=
        ⟨fun a b => pvCmp_total _ _ _⟩
      haveI : IsTrans ResRow (fun a b : ResRow =>
          pvCmp (it.sort_order.getD "desc" = "asc") a.metric_value b.metric_value = true) :=
        ⟨fun a b c => pvCmp_trans _ _ _ _⟩
      exact List.sorted_insertionSort _ g
  · intro hsb
    refine ⟨{ data := g
              metric_value := if g.length = 1 then (g.head?).map (·.metric_value) else none
              metric_name := _get_metric_name it.metric
              explanation := it.explanation.getD "Query executed"
              query_intent := it }, ?_, rfl⟩
    simp [execute, hstage, hsb, hl, applyLimit]

/-- Witness for C3 (amended) on a concrete grouped query, in both the
`metric` branch and the real-column branch. -/
theorem sort_semantics_witness :
    (∃ res, execute ⟨[rowA, rowB]⟩
        { metric := "transactions", aggregation := "sum", group_by := ["product"],
          filters := [] } = .ok (⟨[rowA, rowB]⟩, res) ∧
      res.data.Perm
        [{ cells := [("product", .s "pix")],
           aggs := [("quantity_transactions", 1)], metric_value := .fin 1 },
         { cells := [("product", .s "pos")],
           aggs := [("quantity_transactions", 2)], metric_value := .fin 2 }] ∧
      res.data.Pairwise (fun a b => pvCmp false a.metric_value b.metric_value = true)) ∧
    (∃ res, execute ⟨[rowA, rowB]⟩
        { metric := "transactions", aggregation := "sum", group_by := ["product"],
          filters := [], sort_by := some "product" } = .ok (⟨[rowA, rowB]⟩, res) ∧
      res.data =
        [{ cells := [("product", .s "pix")],
           aggs := [("quantity_transactions", 1)], metric_value := .fin 1 },
         { cells := [("product", .s "pos")],
           aggs := [("quantity_transactions", 2)], metric_value := .fin 2 }]) := by
  constructor
  · have h := (sort_semantics ⟨[rowA, rowB]⟩
      { metric := "transactions", aggregation := "sum", group_by := ["product"],
        filters := [] }
      [{ cells := [("product", .s "pix")],
         aggs := [("quantity_transactions", 1)], metric_value := .fin 1 },
       { cells := [("product", .s "pos")],
         aggs := [("quantity_transactions", 2)], metric_value := .fin 2 }]
      rfl (by decide)).1 rfl
    exact h
  · exact (sort_semantics ⟨[rowA, rowB]⟩
      { metric := "transactions", aggregation := "sum", group_by := ["product"],
        filters := [], sort_by := some "product" }
      [{ cells := [("product", .s "pix")],
         aggs := [("quantity_transactions", 1)], metric_value := .fin 1 },
       { cells := [("product", .s "pos")],
         aggs := [("quantity_transactions", 2)], metric_value := .fin 2 }]
      rfl (by decide)).2 (by decide)

/-! ### C4: anomaly detection -/

/-- Membership in the seen-accumulator dedup. -/
theorem mem_uniqueFirstAux {α : Type} [DecidableEq α] :
    ∀ (l seen : List α) (a : α), a ∈ uniqueFirstAux seen l ↔ (a ∈ l ∧ a ∉ seen) := by
  intro l
  induction l with
  | nil => intro seen a; simp [uniqueFirstAux]
  | cons x xs ih =>
    intro seen a
    by_cases hx : x ∈ seen
    · rw [uniqueFirstAux, if_pos hx, ih]
      constructor
      · rintro ⟨h1, h2⟩
        exact ⟨List.mem_cons_of_mem _ h1, h2⟩
      · rintro ⟨h1, h2⟩
        rcases List.mem_cons.mp h1 with rfl | h1'
        · exact absurd hx h2
        · exact ⟨h1', h2⟩
    · rw [uniqueFirstAux, if_neg hx]
      simp only [List.mem_cons, ih]
      constructor
      · rintro (rfl | ⟨h1, h2⟩)
        · exact ⟨Or.inl rfl, hx⟩
        · exact ⟨Or.inr h1, fun hs => h2 (Or.inr hs)⟩
      · rintro ⟨rfl | h1, h2⟩
        · exact Or.inl rfl
        · by_cases hax : a = x
          · exact Or.inl hax
          · exact Or.inr ⟨h1, by simp [hax, h2]⟩

/-- `Series.unique` keeps exactly the values present. -/
theorem mem_uniqueFirst {α : Type} [DecidableEq α] (l : List α) (a : α) :
    a ∈ uniqueFirst l ↔ a ∈ l := by
  rw [uniqueFirst, mem_uniqueFirstAux]
  simp

/-- Summing an all-finite float series is the finite sum. -/
theorem pvSum_fin (xs : List ℚ) : ∀ acc : ℚ,
    (xs.map PVal.fin).foldl pvadd (.fin acc) = .fin (acc + xs.sum) := by
  induction xs with
  | nil => intro acc; simp
  | cons x xs ih =>
    intro acc
    simp only [List.map_cons, List.foldl_cons, pvadd, List.sum_cons, ih (acc + x)]
    exact congrArg _ (by ring)

/-- An all-finite series has no `NaN` entries to skip. -/
theorem pvDropNan_map_fin (xs : List ℚ) :
    pvDropNan (xs.map PVal.fin) = xs.map PVal.fin := by
  rw [pvDropNan, List.filter_eq_self]
  intro a ha
  obtain ⟨q, _, rfl⟩ := List.mem_map.mp ha
  simp

/-- The mean of a non-empty all-finite float series is the finite mean. -/
theorem pvMean_fin (xs : List ℚ) (h : xs ≠ []) :
    pvMean (xs.map PVal.fin) = .fin (specMean xs) := by
  rw [pvMean, specMean, pvDropNan_map_fin]
  have hne : (xs.map PVal.fin).isEmpty = false := by
    cases xs with
    | nil => exact absurd rfl h
    | cons a l => rfl
  rw [hne]
  simp only [Bool.false_eq_true, if_false, pvSum, pvSum_fin xs 0, zero_add,
    List.length_map]

/-- The squared sample deviation of an all-finite float series of at
least two points is the finite `ssq / (n−1)`. -/
theorem pvVar_fin (xs : List ℚ) (h2 : 2 ≤ xs.length) :
    pvVar (xs.map PVal.fin) = .fin (specSsq xs / ((xs.length : ℚ) - 1)) := by
  have hne : xs ≠ [] := by
    cases xs with
    | nil => simp at h2
    | cons a l => simp
  rw [pvVar, pvDropNan_map_fin, if_neg (by simp; omega)]
  rw [pvMean_fin xs hne]
  have hmap : (xs.map PVal.fin).map (fun x => pvsq (pvsub x (.fin (specMean xs)))) =
      (xs.map (fun x => (x - specMean xs) ^ 2)).map PVal.fin := by
    simp only [List.map_map]
    apply List.map_congr_left
    intro a _
    simp [pvsub, pvsq, Function.comp, sq]
  rw [hmap, pvSum, pvSum_fin _ 0, zero_add]
  simp only [List.length_map, specSsq]
  have hcast : (((xs.length - 1 : ℕ)) : ℚ) = (xs.length : ℚ) - 1 := by
    have : 1 ≤ xs.length := by omega
    push_cast [this]
    ring
  rw [hcast]

/-- Every alert emitted for a segment value carries that segment, metric
and displayed value. -/
theorem processSegValue_stamp (cur hist : List Row) (seg met : String) (v : Value)
    (a : Alert) (h : processSegValue cur hist seg met v = some a) :
    a.segment = seg ∧ a.metric = met ∧ a.segment_value = v.display := by
  simp only [processSegValue] at h
  split_ifs at h
  all_goals obtain rfl := Option.some.inj h
  all_goals exact ⟨rfl, rfl, rfl⟩

/-- The code's historical series is the finite embedding of the
specification's per-day values (given no zero-count historical day for
the average ticket). -/
theorem histValues_eq_spec (met : String) (hs : List Row)
    (hm : met = "tpv" ∨ met = "average_ticket")
    (hqhist : met = "average_ticket" →
      ∀ d ∈ histDays hs, sumQty (rowsOnDay hs d) ≠ 0) :
    histValues met hs = (specHistValues met hs).map PVal.fin := by
  rcases hm with h | h
  · subst h
    simp only [histValues, specHistValues, List.map_map, reduceIte]
    apply List.map_congr_left
    intro d _
    simp [specDayMetric, Function.comp]
  · subst h
    simp only [histValues, specHistValues, List.map_map, reduceIte]
    apply List.map_congr_left
    intro d hd
    have hq := hqhist rfl d hd
    have hq' : ((sumQty (rowsOnDay hs d) : ℚ)) ≠ 0 := by
      simpa using hq
    simp [specDayMetric, Function.comp, pvdiv, hq, hq']

/-- A non-empty segment history has a non-empty day list. -/
theorem histDays_ne_nil (hs : List Row) (h : hs ≠ []) : histDays hs ≠ [] := by
  obtain ⟨r, hr⟩ := List.exists_mem_of_ne_nil hs h
  have : r.day ∈ histDays hs := by
    rw [histDays, (List.perm_insertionSort _ _).mem_iff, mem_uniqueFirst]
    exact List.mem_map_of_mem _ hr
  exact List.ne_nil_of_mem this

/-- The emitted-alert test of the per-value loop body, as the
specification condition: given the metric enum, a non-empty segment
history, non-negative current counts and no zero-count historical day
for the average ticket, the loop emits an alert for `v` iff the
specification's anomaly condition holds at the segment's current value
and per-day historical values. -/
theorem processSegValue_isSome_iff (cur hist : List Row) (seg met : String) (v : Value)
    (hm : met = "tpv" ∨ met = "average_ticket")
    (hqcur : 0 ≤ sumQty (cur.filter (segMatches seg v)))
    (hqhist : met = "average_ticket" →
      ∀ d ∈ histDays (hist.filter (segMatches seg v)),
        sumQty (rowsOnDay (hist.filter (segMatches seg v)) d) ≠ 0)
    (hhist : hist.filter (segMatches seg v) ≠ []) :
    ((processSegValue cur hist seg met v).isSome ↔
      specAnomaly (specDayMetric met (cur.filter (segMatches seg v)))
        (specHistValues met (hist.filter (segMatches seg v)))) := by
  have hxs : histValues met (hist.filter (segMatches seg v)) =
      (specHistValues met (hist.filter (segMatches seg v))).map PVal.fin :=
    histValues_eq_spec met _ hm hqhist
  have hxs_ne : specHistValues met (hist.filter (segMatches seg v)) ≠ [] := by
    have := histDays_ne_nil _ hhist
    simp only [specHistValues]
    intro hcon
    exact this (List.map_eq_nil_iff.mp hcon)
  have hcv : (if met = "tpv" then sumAmount (cur.filter (segMatches seg v))
      else if 0 < sumQty (cur.filter (segMatches seg v)) then
        sumAmount (cur.filter (segMatches seg v)) /
          (sumQty (cur.filter (segMatches seg v)) : ℚ)
      else 0) = specDayMetric met (cur.filter (segMatches seg v)) := by
    rcases hm with h | h
    · simp [h, specDayMetric]
    · subst h
      rcases lt_or_eq_of_le hqcur with hlt | heq
      · have h0 : sumQty (cur.filter (segMatches seg v)) ≠ 0 := by omega
        simp [specDayMetric, hlt, h0]
      · simp [specDayMetric, ← heq]
  simp only [processSegValue]
  rw [if_neg (by simp [hhist])]
  rw [hcv, hxs]
  rw [if_neg (by simp [hxs_ne])]
  rw [pvMean_fin _ hxs_ne]
  set c := specDayMetric met (cur.filter (segMatches seg v)) with hc
  set xs := specHistValues met (hist.filter (segMatches seg v)) with hxsdef
  set m := specMean xs with hm2
  have hvaria : (if pvGtZero (.fin m) then
      pvscale 100 (pvdivP (pvsub (.fin c) (.fin m)) (.fin m)) else .fin 0) =
      .fin (specVariationPct c m) := by
    by_cases hgt : 0 < m
    · have hm0 : m ≠ 0 := ne_of_gt hgt
      simp [pvGtZero, hgt, pvsub, pvdivP, pvdiv, hm0, pvscale, specVariationPct]
    · simp [pvGtZero, hgt, specVariationPct]
  rw [hvaria]
  have hzb : zBreach c (xs.map PVal.fin) = true ↔ specZBreach c xs := by
    by_cases hlen : 2 ≤ xs.length
    · rw [zBreach, pvVar_fin _ hlen, pvMean_fin _ hxs_ne]
      have hd : (0 : ℚ) < (xs.length : ℚ) - 1 := by
        have : (2 : ℚ) ≤ (xs.length : ℚ) := by exact_mod_cast hlen
        linarith
      simp only [Bool.and_eq_true, decide_eq_true_eq, specZBreach]
      constructor
      · rintro ⟨h1, h2⟩
        refine ⟨hlen, ?_, h2⟩
        rw [div_pos_iff] at h1
        rcases h1 with ⟨ha, _⟩ | ⟨_, hb⟩
        · exact ha
        · linarith
      · rintro ⟨_, h1, h2⟩
        exact ⟨div_pos h1 hd, h2⟩
    · rw [zBreach]
      have hvar : pvVar (xs.map PVal.fin) = .nan := by
        rw [pvVar, pvDropNan_map_fin, if_pos (by simp; omega)]
      rw [hvar]
      simp only [specZBreach]
      constructor
      · intro hcon
        exact absurd hcon (by simp)
      · rintro ⟨h2, _⟩
        exact absurd h2 hlen
  by_cases hcond : (pvAbsGt (.fin (specVariationPct c m)) 15 ||
      zBreach c (xs.map PVal.fin)) = true
  · rw [if_pos hcond]
    simp only [Option.isSome_some, true_iff]
    rcases Bool.or_eq_true_iff.mp hcond with h1 | h1
    · exact Or.inl (by simpa [pvAbsGt] using h1)
    · exact Or.inr (hzb.mp h1)
  · rw [if_neg hcond]
    simp only [Option.isSome_none, Bool.false_eq_true, false_iff]
    rintro (h1 | h1)
    · exact hcond (Bool.or_eq_true_iff.mpr (Or.inl (by simpa [pvAbsGt] using h1)))
    · exact hcond (Bool.or_eq_true_iff.mpr (Or.inr (hzb.mpr h1)))

/-- Every alert of a segment/metric pass carries that segment and
metric. -/
theorem check_stamp (cur hist : List Row) (seg met : String) (a : Alert)
    (h : a ∈ _check_segment_anomalies cur hist seg met) :
    a.segment = seg ∧ a.metric = met := by
  rw [_check_segment_anomalies] at h
  obtain ⟨v', _, hp⟩ := List.mem_filterMap.mp h
  have hst := processSegValue_stamp _ _ _ _ _ _ hp
  exact ⟨hst.1, hst.2.1⟩

/-- A pass emits an alert displaying `v` iff the loop body fires at `v`
(for `v` among the current day's segment values, with display injective
on those values). -/
theorem check_mem_iff (cur hist : List Row) (seg met : String) (v : Value)
    (hvin : v ∈ cur.filterMap (fun r => colVal r seg))
    (hinj : ∀ v' ∈ cur.filterMap (fun r => colVal r seg),
      v'.display = v.display → v' = v) :
    ((∃ a ∈ _check_segment_anomalies cur hist seg met, a.segment_value = v.display) ↔
      (processSegValue cur hist seg met v).isSome) := by
  constructor
  · rintro ⟨a, ha, hav⟩
    rw [_check_segment_anomalies] at ha
    obtain ⟨v', hv', hpv'⟩ := List.mem_filterMap.mp ha
    have hst := processSegValue_stamp cur hist seg met v' a hpv'
    have hveq : v' = v := by
      apply hinj v' (by rwa [mem_uniqueFirst] at hv')
      rw [← hst.2.2]
      exact hav
    subst hveq
    rw [hpv']
    rfl
  · intro hs
    obtain ⟨a, ha⟩ := Option.isSome_iff_exists.mp hs
    refine ⟨a, ?_, (processSegValue_stamp cur hist seg met v a ha).2.2⟩
    rw [_check_segment_anomalies]
    exact List.mem_filterMap.mpr ⟨v, (mem_uniqueFirst _ _).mpr hvin, ha⟩

/-- The product and entity columns only hold string values. -/
theorem colVal_seg_string (r : Row) (w : Value) (seg : String)
    (hseg : seg = "product" ∨ seg = "entity") (h : colVal r seg = some w) :
    ∃ s, w = .s s := by
  rcases hseg with rfl | rfl <;> simp [colVal] at h <;> exact ⟨_, h.symm⟩

/-- Splitting membership in the four concatenated passes. -/
theorem mem_four_concat {a : Alert} {L1 L2 L3 L4 : List Alert}
    (h : a ∈ L1 ++ L2 ++ L3 ++ L4) : a ∈ L1 ∨ a ∈ L2 ∨ a ∈ L3 ∨ a ∈ L4 := by
  simp only [List.mem_append] at h
  tauto

/-- An alert of `detect_anomalies` for a given segment dimension, metric
and displayed value is exactly an alert of the one matching pass (the
other three passes are excluded by their stamps). -/
theorem detect_mem_iff (rows : List Row) (seg met : String) (v : String)
    (hseg : seg = "product" ∨ seg = "entity")
    (hmet : met = "tpv" ∨ met = "average_ticket") :
    ((∃ a ∈ detect_anomalies rows, a.segment = seg ∧ a.metric = met ∧ a.segment_value = v) ↔
      (∃ a ∈ _check_segment_anomalies (rowsOnDay rows (maxDay rows))
          (rows.filter (fun r => maxDay rows - 14 ≤ r.day ∧ r.day < maxDay rows)) seg met,
        a.segment_value = v)) := by
  have hdet : detect_anomalies rows =
      _check_segment_anomalies (rowsOnDay rows (maxDay rows))
        (rows.filter (fun r => maxDay rows - 14 ≤ r.day ∧ r.day < maxDay rows))
        "product" "tpv" ++
      _check_segment_anomalies (rowsOnDay rows (maxDay rows))
        (rows.filter (fun r => maxDay rows - 14 ≤ r.day ∧ r.day < maxDay rows))
        "entity" "tpv" ++
      _check_segment_anomalies (rowsOnDay rows (maxDay rows))
        (rows.filter (fun r => maxDay rows - 14 ≤ r.day ∧ r.day < maxDay rows))
        "product" "average_ticket" ++
      _check_segment_anomalies (rowsOnDay rows (maxDay rows))
        (rows.filter (fun r => maxDay rows - 14 ≤ r.day ∧ r.day < maxDay rows))
        "entity" "average_ticket" := rfl
  rcases hseg with rfl | rfl <;> rcases hmet with rfl | rfl <;>
  · constructor
    · rintro ⟨a, ha, has, ham, hav⟩
      rw [hdet] at ha
      rcases mem_four_concat ha with h | h | h | h
      all_goals first
      | exact ⟨a, h, hav⟩
      | (have st := check_stamp _ _ _ _ _ h
         first
         | exact absurd (has.symm.trans st.1) (by decide)
         | exact absurd (ham.symm.trans st.2) (by decide))
    · rintro ⟨a, h, hav⟩
      have st := check_stamp _ _ _ _ _ h
      refine ⟨a, ?_, st.1, st.2, hav⟩
      rw [hdet]
      simp only [List.mem_append]
      tauto

/-- Counterexample to C4 as stated: the pix segment is present on the
current day (20) and in the 14-day window (days 13 and 14), and the
claim's condition holds — per-day average-ticket values 0 (day 13, a
zero-count day, guarded per the spec table) and 10 (day 14) give
hist_mean 5 against a current value of 10, a +100% variation — yet
`detect_anomalies` emits no product/average_ticket alert for pix: the
code's unguarded per-day ratio for day 13 is `5/0 = inf`, the historical
mean becomes `inf`, the variation `NaN` and the standard-deviation guard
fails, so neither threshold fires. -/
theorem anomaly_alert_counterexample :
    ((Value.s "pix") ∈ (rowsOnDay [rowE, rowF, rowG] (maxDay [rowE, rowF, rowG])).filterMap
        (fun r => colVal r "product")) ∧
    (([rowE, rowF, rowG].filter (fun r => maxDay [rowE, rowF, rowG] - 14 ≤ r.day ∧
        r.day < maxDay [rowE, rowF, rowG])).filter (segMatches "product" (.s "pix")) ≠ []) ∧
    specAnomaly
      (specDayMetric "average_ticket"
        ((rowsOnDay [rowE, rowF, rowG] (maxDay [rowE, rowF, rowG])).filter
          (segMatches "product" (.s "pix"))))
      (specHistValues "average_ticket"
        (([rowE, rowF, rowG].filter (fun r => maxDay [rowE, rowF, rowG] - 14 ≤ r.day ∧
            r.day < maxDay [rowE, rowF, rowG])).filter (segMatches "product" (.s "pix")))) ∧
    ¬ (∃ a ∈ detect_anomalies [rowE, rowF, rowG],
        a.segment = "product" ∧ a.metric = "average_ticket" ∧ a.segment_value = "pix") := by
  refine ⟨by decide, by decide, ?_, ?_⟩
  · simp [specAnomaly, specVariationPct, specMean, specSsq, specZBreach, specDayMetric,
      specHistValues, histDays, rowsOnDay, uniqueFirst, uniqueFirstAux, sumAmount, sumQty,
      segMatches, colVal, maxDay, rowE, rowF, rowG, List.insertionSort, List.orderedInsert]
    norm_num
  · have hnone : processSegValue
        (rowsOnDay [rowE, rowF, rowG] (maxDay [rowE, rowF, rowG]))
        ([rowE, rowF, rowG].filter (fun r => maxDay [rowE, rowF, rowG] - 14 ≤ r.day ∧
          r.day < maxDay [rowE, rowF, rowG]))
        "product" "average_ticket" (.s "pix") = none := by
      simp [processSegValue, histValues, histDays, rowsOnDay, uniqueFirst, uniqueFirstAux,
        segMatches, colVal, maxDay, sumAmount, sumQty, pvdiv, pvMean, pvDropNan, pvSum,
        pvadd, pvsub, pvsq, pvVar, pvGtZero, pvAbsGt, pvscale, pvdivP, zBreach, pvLtZero,
        rowE, rowF, rowG, List.insertionSort, List.orderedInsert]
    have huniq : uniqueFirst ((rowsOnDay [rowE, rowF, rowG]
        (maxDay [rowE, rowF, rowG])).filterMap (fun r => colVal r "product")) =
        [Value.s "pix"] := by decide
    intro hex
    obtain ⟨a, ha, hav⟩ := (detect_mem_iff [rowE, rowF, rowG] "product" "average_ticket"
      "pix" (Or.inl rfl) (Or.inr rfl)).mp hex
    rw [_check_segment_anomalies, huniq] at ha
    simp only [List.filterMap_cons, List.filterMap_nil, hnone] at ha
    exact absurd ha (by simp)

/-- C4 (amended): for each segment dimension (product, entity) and
metric (tpv, average_ticket), a segment value present on the current
(maximum) day and present in the 14-day historical window gets an alert
emitted by `detect_anomalies` iff the specification condition holds —
`|variation%| > 15` or `|z| > 2` — computed from the segment's current
value and its per-historical-day values, provided that for
`average_ticket` every historical day of the segment has a nonzero
transaction-count sum (at a zero-count day the code's unguarded per-day
ratio is non-finite, its mean/std degenerate and no alert is emitted
regardless of the condition — see the counterexample above); in
particular a current value equal to the historical mean (variation 0,
z 0) never triggers.  Non-negative transaction counts are the
data-model invariant. -/
theorem anomaly_alert_iff (rows : List Row) (seg met : String) (v : String)
    (hseg : seg = "product" ∨ seg = "entity")
    (hmet : met = "tpv" ∨ met = "average_ticket")
    (hq : ∀ r ∈ rows, 0 ≤ r.quantity_transactions)
    (hcur : Value.s v ∈ (rowsOnDay rows (maxDay rows)).filterMap (fun r => colVal r seg))
    (hhist : (rows.filter (fun r => maxDay rows - 14 ≤ r.day ∧ r.day < maxDay rows)).filter
        (segMatches seg (.s v)) ≠ [])
    (hqhist : met = "average_ticket" →
      ∀ d ∈ histDays ((rows.filter (fun r => maxDay rows - 14 ≤ r.day ∧ r.day < maxDay rows)).filter
          (segMatches seg (.s v))),
        sumQty (rowsOnDay ((rows.filter (fun r => maxDay rows - 14 ≤ r.day ∧ r.day < maxDay rows)).filter
          (segMatches seg (.s v))) d) ≠ 0) :
    ((∃ a ∈ detect_anomalies rows, a.segment = seg ∧ a.metric = met ∧ a.segment_value = v) ↔
      specAnomaly
        (specDayMetric met ((rowsOnDay rows (maxDay rows)).filter (segMatches seg (.s v))))
        (specHistValues met
          ((rows.filter (fun r => maxDay rows - 14 ≤ r.day ∧ r.day < maxDay rows)).filter
            (segMatches seg (.s v))))) := by
  have hinj : ∀ v' ∈ (rowsOnDay rows (maxDay rows)).filterMap (fun r => colVal r seg),
      v'.display = (Value.s v).display → v' = .s v := by
    intro v' hv' hd
    obtain ⟨r, _, hcv⟩ := List.mem_filterMap.mp hv'
    obtain ⟨s, rfl⟩ := colVal_seg_string r v' seg hseg hcv
    simp only [Value.display] at hd
    rw [hd]
  have hqcur : 0 ≤ sumQty ((rowsOnDay rows (maxDay rows)).filter (segMatches seg (.s v))) := by
    apply List.sum_nonneg
    intro x hx
    obtain ⟨r, hr, rfl⟩ := List.mem_map.mp hx
    exact hq r (List.mem_of_mem_filter (List.mem_of_mem_filter hr))
  exact (detect_mem_iff rows seg met v hseg hmet).trans
    ((check_mem_iff _ _ seg met (.s v) hcur hinj).trans
      (processSegValue_isSome_iff _ _ seg met (.s v) hmet hqcur hqhist hhist))

/-- Witness for C4: with current pix TPV equal to its one historical
value, no pix TPV alert is emitted; doubling the current amount (a +100%
variation) makes the alert appear. -/
theorem anomaly_alert_iff_witness :
    (¬ ∃ a ∈ detect_anomalies [rowA, rowC],
        a.segment = "product" ∧ a.metric = "tpv" ∧ a.segment_value = "pix") ∧
    (∃ a ∈ detect_anomalies [rowD, rowC],
        a.segment = "product" ∧ a.metric = "tpv" ∧ a.segment_value = "pix") := by
  constructor
  · have h := anomaly_alert_iff [rowA, rowC] "product" "tpv" "pix"
      (Or.inl rfl) (Or.inl rfl) (by decide) (by decide) (by decide)
      (fun hmet => absurd hmet (by decide))
    intro hex
    have hspec := h.mp hex
    revert hspec
    simp [specAnomaly, specVariationPct, specMean, specSsq, specZBreach, specDayMetric,
      specHistValues, histDays, rowsOnDay, uniqueFirst, uniqueFirstAux, sumAmount, sumQty,
      segMatches, colVal, maxDay, rowA, rowC, List.insertionSort, List.orderedInsert]
  · have h := anomaly_alert_iff [rowD, rowC] "product" "tpv" "pix"
      (Or.inl rfl) (Or.inl rfl) (by decide) (by decide) (by decide)
      (fun hmet => absurd hmet (by decide))
    apply h.mpr
    simp [specAnomaly, specVariationPct, specMean, specSsq, specZBreach, specDayMetric,
      specHistValues, histDays, rowsOnDay, uniqueFirst, uniqueFirstAux, sumAmount, sumQty,
      segMatches, colVal, maxDay, rowD, rowC, List.insertionSort, List.orderedInsert]
    norm_num

end DataAgent
